import Mathlib

/-!
Verification of the multiplayer arena session controller
(`src/party/server.ts`).

The game state, message handlers (`join`, `select-char`, `move`,
`start-game`, `hit`, `minion-hit`, `pickup`), the win-condition
evaluator and the minion AI tick are embedded as Lean functions over a
`GameState` record.  Hit points and damage values are modelled as `ℚ`
(all JSON numbers are rationals and every hp computation in the source
is rational arithmetic); positions are modelled as `ℝ` because the
minion tick uses `Math.sqrt`/`Math.hypot`.  Broadcasts are modelled
only where a claim is about them: `checkWinCondition` returns the
optional game-over message it would broadcast, and `minion-hit`
returns its outbound event list alongside the new state.  The optional
`sourceId` field of a `hit` message is modelled as `Option String`
(the handler's JS truthiness test `data.sourceId` distinguishes a
present field from an absent one).
-/

namespace MP

inductive Role
  | hunter
  | runner
  deriving DecidableEq

structure Player where
  id : String
  x : ℝ
  z : ℝ
  rot : ℝ
  role : Role
  hp : ℚ
  weapon : String
  charIndex : ℤ

structure Minion where
  x : ℝ
  z : ℝ
  hp : ℚ

structure GameState where
  players : List Player
  minion : Option Minion
  started : Bool
  lastHitTime : ℚ

structure GameOverMsg where
  winner : String
  reason : String
  deriving DecidableEq

inductive OutEvent
  | minionHitEv (hp : ℚ)
  | gameOverEv (g : GameOverMsg)
  deriving DecidableEq

/-- `checkWinCondition` (server.ts lines 27-37).  Returns the game-over
message it would broadcast, if any. -/
def checkWinCondition (s : GameState) : Option GameOverMsg :=
  let aliveRunners := (s.players.filter (fun p => decide (p.role = Role.runner ∧ 0 < p.hp))).length
  let aliveHunter := s.players.find? (fun p => decide (p.role = Role.hunter ∧ 0 < p.hp))
  let minionAlive := match s.minion with
    | some m => decide (0 < m.hp)
    | none => false
  if aliveRunners = 0 then
    some { winner := "Hunter", reason := "Runners Eliminated" }
  else if aliveHunter.isNone = true ∧ minionAlive = false then
    some { winner := "Runners", reason := "Hunter & Minion Defeated" }
  else
    none

/-- JS `state.players[id] = np`: overwrite in place if the key exists,
otherwise append (object property insertion order). -/
def setPlayer (ps : List Player) (np : Player) : List Player :=
  if ps.any (fun q => decide (q.id = np.id)) then
    ps.map (fun q => if q.id = np.id then np else q)
  else
    ps ++ [np]

/-- The fresh player record built by the `join` handler (lines 66-75). -/
def freshPlayer (connId : String) : Player :=
  { id := connId, x := 0, z := 0, rot := 0, role := Role.runner, hp := 100,
    weapon := "none", charIndex := 0 }

/-- `case "join"` (lines 64-91): unconditional overwrite with defaults. -/
def joinOp (s : GameState) (connId : String) : GameState :=
  { s with players := setPlayer s.players (freshPlayer connId) }

/-- `case "select-char"` (lines 93-102). -/
def selectCharOp (s : GameState) (connId : String) (ci : ℤ) : GameState :=
  { s with players := s.players.map (fun p =>
      if p.id = connId then { p with charIndex := ci } else p) }

/-- `case "move"` (lines 104-116). -/
def moveOp (s : GameState) (pid : String) (x z rot : ℝ) : GameState :=
  { s with players := s.players.map (fun p =>
      if p.id = pid then { p with x := x, z := z, rot := rot } else p) }

/-- `case "start-game"` (lines 118-135).  The random hunter index
`Math.floor(Math.random() * playerIds.length)` is passed in as `k`;
the step relation below constrains it to `k < playerIds.length`. -/
def startGameOp (s : GameState) (k : ℕ) : GameState :=
  let ids := s.players.map Player.id
  if ids.isEmpty then s
  else
    let hunterId := ids.getD k ""
    { s with
      players := s.players.map (fun p =>
        { p with role := if p.id = hunterId then Role.hunter else Role.runner,
                 hp := 100, weapon := "none" }),
      minion := some { x := 0, z := 0, hp := 500 },
      started := true }

/-- The heal assignment `source.hp = Math.min(150, source.hp + 20)`
applied to the roster entry named `sid0` (line 146). -/
def healMap (sid0 : String) (ps : List Player) : List Player :=
  ps.map (fun p => if p.id = sid0 then { p with hp := min 150 (p.hp + 20) } else p)

/-- The target mutation `target.hp -= damage; if (target.hp < 0)
target.hp = 0` (lines 140-141), applied to the roster entry named
`targetId`; `newHp` is the already-clamped value. -/
def dmgMap (targetId : String) (newHp : ℚ) (ps : List Player) : List Player :=
  ps.map (fun p => if p.id = targetId then { p with hp := newHp } else p)

/-- `case "hit"` (lines 137-159).  The target object is mutated first
(damage then floor clamp), and the heal reads the roster after that
mutation, so a self-hit by the hunter heals from the already-clamped
value, exactly as the aliased JS objects do. -/
def hitOp (s : GameState) (targetId : String) (sourceId : Option String) (damage : ℚ) : GameState :=
  match s.players.find? (fun p => decide (p.id = targetId)) with
  | none => s
  | some t =>
    let newHp := max 0 (t.hp - damage)
    let players1 := dmgMap targetId newHp s.players
    let players2 :=
      if newHp = 0 then
        match sourceId with
        | some sid0 =>
          match players1.find? (fun p => decide (p.id = sid0)) with
          | some src => if src.role = Role.hunter then healMap sid0 players1 else players1
          | none => players1
        | none => players1
      else players1
    { s with players := players2 }

/-- The broadcast performed by an invocation of the win-condition
evaluator. -/
def winBroadcast (s : GameState) : List OutEvent :=
  match checkWinCondition s with
  | some g => [OutEvent.gameOverEv g]
  | none => []

/-- `case "minion-hit"` (lines 161-171): no floor clamp; the minion is
removed exactly when the resulting hp is ≤ 0, and only then is the
win-condition evaluator invoked.  Returns the new state together with
the outbound events. -/
def minionHitOp (s : GameState) (damage : ℚ) : GameState × List OutEvent :=
  match s.minion with
  | none => (s, [])
  | some m =>
    let hp' := m.hp - damage
    if hp' ≤ 0 then
      let s' := { s with minion := none }
      (s', OutEvent.minionHitEv hp' :: winBroadcast s')
    else
      ({ s with minion := some { m with hp := hp' } }, [OutEvent.minionHitEv hp'])

/-- `case "pickup"` (lines 173-183). -/
def pickupOp (s : GameState) (pid : String) (w : String) : GameState :=
  { s with players := s.players.map (fun p =>
      if p.id = pid then { p with weapon := w } else p) }

/-- `Math.hypot a b` and `Math.sqrt (a*a + b*b)` (lines 199 and 207):
both compute the same value. -/
noncomputable def hyp (a b : ℝ) : ℝ := Real.sqrt (a * a + b * b)

/-- The runner scan of the minion tick (lines 194-202): mutable
`nearest`/`minDist` accumulator threaded through `forEach`, keeping
the first strictly-closer candidate, starting from `(null, 9999)`. -/
noncomputable def scanNearestAux (m : Minion) : List Player → Option Player × ℝ → Option Player × ℝ
  | [], acc => acc
  | p :: ps, acc =>
    scanNearestAux m ps
      (if p.role = Role.runner ∧ 0 < p.hp then
        if hyp (p.x - m.x) (p.z - m.z) < acc.2 then
          (some p, hyp (p.x - m.x) (p.z - m.z))
        else acc
      else acc)

noncomputable def scanNearest (m : Minion) (ps : List Player) : Option Player × ℝ :=
  scanNearestAux m ps (none, 9999)

/-- One minion AI tick (lines 189-235).  Movement and contact damage
are both nested inside `if (len > 0)`; the damage check uses the
pre-movement `minDist` while the direction uses the recomputed `len`
(the same value). -/
noncomputable def tickOp (s : GameState) : GameState :=
  if s.started = true then
    match s.minion with
    | none => s
    | some m =>
      match scanNearest m s.players with
      | (some t, minDist) =>
        let dx := t.x - m.x
        let dz := t.z - m.z
        let len := Real.sqrt (dx * dx + dz * dz)
        if len > 0 then
          let m' : Minion := { x := m.x + dx / len * 0.15, z := m.z + dz / len * 0.15, hp := m.hp }
          if minDist < 3.5 then
            { s with minion := some m',
                     players := s.players.map (fun q =>
                       if q.id = t.id then { q with hp := max 0 (q.hp - 0.5) } else q) }
          else { s with minion := some m' }
        else s
      | (none, _) => s
  else s

/-- The lazily-created empty room state (lines 53-60); also what a tick
observes before any message (`!state?.started` short-circuits). -/
def initState : GameState :=
  { players := [], minion := none, started := false, lastHitTime := 0 }

/-- One mutation of the room state: an inbound message or a minion AI
tick.  `D` constrains the damage fields of `hit`/`minion-hit` events
(used to express "event sequences in which every damage field is an
integer"). -/
inductive Step (D : ℚ → Prop) : GameState → GameState → Prop
  | join (s : GameState) (connId : String) : Step D s (joinOp s connId)
  | selectChar (s : GameState) (connId : String) (ci : ℤ) : Step D s (selectCharOp s connId ci)
  | moveEv (s : GameState) (pid : String) (x z rot : ℝ) : Step D s (moveOp s pid x z rot)
  | startGame (s : GameState) (k : ℕ) (hk : s.players = [] ∨ k < s.players.length) :
      Step D s (startGameOp s k)
  | hit (s : GameState) (tid : String) (sid : Option String) (dmg : ℚ) (hd : D dmg) :
      Step D s (hitOp s tid sid dmg)
  | minionHit (s : GameState) (dmg : ℚ) (hd : D dmg) : Step D s ((minionHitOp s dmg).1)
  | pickup (s : GameState) (pid w : String) : Step D s (pickupOp s pid w)
  | tick (s : GameState) : Step D s (tickOp s)

def Reachable (D : ℚ → Prop) (s : GameState) : Prop :=
  Relation.ReflTransGen (Step D) initState s

/-- No constraint on damage fields. -/
def AnyD : ℚ → Prop := fun _ => True

/-- Every damage field is an integer. -/
def IntD : ℚ → Prop := fun d => ∃ n : ℤ, d = (n : ℚ)

def lookupP (s : GameState) (pid : String) : Option Player :=
  s.players.find? (fun p => decide (p.id = pid))

def hpOf (s : GameState) (pid : String) : Option ℚ := (lookupP s pid).map Player.hp

def hpD (s : GameState) (pid : String) : ℚ := (hpOf s pid).getD 0

def hunterCount (s : GameState) : ℕ :=
  (s.players.filter (fun p => decide (p.role = Role.hunter))).length

def runnerCount (s : GameState) : ℕ :=
  (s.players.filter (fun p => decide (p.role = Role.runner))).length

/-- A player the minion scan considers: a living runner. -/
def qualifies (p : Player) : Prop := p.role = Role.runner ∧ 0 < p.hp

/-- Planar Euclidean distance from the minion to a player. -/
noncomputable def pdist (m : Minion) (p : Player) : ℝ := hyp (p.x - m.x) (p.z - m.z)

/-- An integer multiple of one half. -/
def HalfInt (q : ℚ) : Prop := ∃ n : ℤ, q = (n : ℚ) / 2

/-- The heal-rule condition of the `hit` handler, phrased over the
pre-event state (roles are unchanged by the target update, so looking
the source up in the pre-state is equivalent). -/
def healCond (s : GameState) (t : Player) (sid : Option String) (dmg : ℚ) : Prop :=
  max 0 (t.hp - dmg) = 0 ∧
    ∃ s0 src, sid = some s0 ∧ lookupP s s0 = some src ∧ src.role = Role.hunter

/-- A sequence of `hit` events, applied in order. -/
def applyHits (s : GameState) (evs : List (String × Option String × ℚ)) : GameState :=
  evs.foldl (fun st e => hitOp st e.1 e.2.1 e.2.2) s

/-- Count of players with role Runner and hp > 0 (the `aliveRunners`
quantity of the win-condition evaluator). -/
def aliveRunners (s : GameState) : ℕ :=
  (s.players.filter (fun p => decide (p.role = Role.runner ∧ 0 < p.hp))).length

/-- Some player with role Hunter has hp > 0. -/
def hunterAlive (s : GameState) : Prop :=
  ∃ p ∈ s.players, p.role = Role.hunter ∧ 0 < p.hp

/-- A Minion is present and has hp > 0. -/
def minionAliveP (s : GameState) : Prop :=
  ∃ m, s.minion = some m ∧ 0 < m.hp

/-! Concrete room states used by witnesses and counterexamples. -/

/-- Two players `"a"`, `"b"` joined into a fresh room. -/
def sAB : GameState := joinOp (joinOp initState "a") "b"

/-- Game started with random index 0: `"a"` is Hunter, `"b"` is Runner,
everyone at `(0,0)` — so the Runner is at distance exactly 0 from the
freshly spawned Minion. -/
def sStart : GameState := startGameOp sAB 0

/-- As `sStart` but the Runner moved to `(1,0)`: distance 1 from the
Minion. -/
def sMove : GameState := moveOp sStart "b" 1 0 0

/-- As `sStart` but the Runner moved to `(10000,0)`: distance 10000
from the Minion, beyond the scan's `9999` sentinel. -/
def sFar : GameState := moveOp sStart "b" 10000 0 0

/-- One tick applied to `sMove`. -/
noncomputable def sTicked : GameState := tickOp sMove

/-- A single-player room whose game was started: `"a"` is the Hunter. -/
def sSolo : GameState := startGameOp (joinOp initState "a") 0

/-- The Hunter `"a"` re-joins the started room `sSolo`: its roster
entry is overwritten with fresh Runner defaults. -/
def sRejoin : GameState := joinOp sSolo "a"

/-- "a" joins a fresh room and is hit for 150 damage. -/
def sHitFloor : GameState := hitOp (joinOp initState "a") "a" none 150

def hunterH : Player :=
  { id := "h", x := 0, z := 0, rot := 0, role := Role.hunter, hp := 100,
    weapon := "none", charIndex := 0 }

def runnerR : Player :=
  { id := "r", x := 0, z := 0, rot := 0, role := Role.runner, hp := 5,
    weapon := "none", charIndex := 0 }

/-- A started room with a Hunter at hp 100 and a Runner at hp 5. -/
def sHR : GameState :=
  { players := [hunterH, runnerR], minion := none, started := true, lastHitTime := 0 }

/-- A started room with a Hunter at hp 100, a Runner at hp 50 and a
Minion at hp 10. -/
def sMin10 : GameState :=
  { players := [hunterH, { runnerR with hp := 50 }],
    minion := some { x := 0, z := 0, hp := 10 }, started := true, lastHitTime := 0 }

/-- The Minion freshly spawned by `start-game`. -/
def minionFresh : Minion := { x := 0, z := 0, hp := 500 }

/-- Player `"a"` as it stands in `sStart` (the Hunter). -/
def aHunter : Player :=
  { id := "a", x := 0, z := 0, rot := 0, role := Role.hunter, hp := 100,
    weapon := "none", charIndex := 0 }

/-- Player `"b"` as it stands in `sStart` (the Runner, at the origin). -/
def bRunner : Player :=
  { id := "b", x := 0, z := 0, rot := 0, role := Role.runner, hp := 100,
    weapon := "none", charIndex := 0 }

/-- Player `"b"` as it stands in `sMove` (moved to `(1,0)`). -/
def bMoved : Player :=
  { id := "b", x := 1, z := 0, rot := 0, role := Role.runner, hp := 100,
    weapon := "none", charIndex := 0 }

/-- Player `"b"` as it stands in `sFar` (moved to `(10000,0)`). -/
def bFar : Player :=
  { id := "b", x := 10000, z := 0, rot := 0, role := Role.runner, hp := 100,
    weapon := "none", charIndex := 0 }

/-! ### General helpers -/

theorem find?_map_of_id {g : Player → Player} (hg : ∀ p, (g p).id = p.id)
    (ps : List Player) (x : String) :
    (ps.map g).find? (fun p => decide (p.id = x)) =
      (ps.find? (fun p => decide (p.id = x))).map g := by
  rw [List.find?_map]
  have h : ((fun p => decide (p.id = x)) ∘ g) = (fun q => decide (q.id = x)) := by
    funext q
    simp [Function.comp, hg q]
  rw [h]

theorem hunter_isNone_iff (s : GameState) :
    (s.players.find? (fun p => decide (p.role = Role.hunter ∧ 0 < p.hp))).isNone = true ↔
      ¬ hunterAlive s := by
  rw [Option.isNone_iff_eq_none, List.find?_eq_none]
  simp [hunterAlive]

theorem minionAliveB_iff (s : GameState) :
    (match s.minion with | some m => decide (0 < m.hp) | none => false) = true ↔
      minionAliveP s := by
  cases h : s.minion with
  | none => simp [minionAliveP, h]
  | some m => simp [minionAliveP, h]

/-- C3: the win-condition evaluator broadcasts winner Hunter with
reason "Runners Eliminated" exactly when the count of living Runners
is 0 (regardless of the Hunter's own hp or the Minion), otherwise
winner Runners with reason "Hunter & Minion Defeated" exactly when no
Hunter is alive and no living Minion is present, and otherwise
broadcasts nothing. -/
theorem winCondition_characterization (s : GameState) :
    (checkWinCondition s = some { winner := "Hunter", reason := "Runners Eliminated" } ↔
       aliveRunners s = 0) ∧
    (checkWinCondition s = some { winner := "Runners", reason := "Hunter & Minion Defeated" } ↔
       aliveRunners s ≠ 0 ∧ ¬ hunterAlive s ∧ ¬ minionAliveP s) ∧
    (checkWinCondition s = none ↔
       aliveRunners s ≠ 0 ∧ (hunterAlive s ∨ minionAliveP s)) := by
  have hne : ({ winner := "Hunter", reason := "Runners Eliminated" } : GameOverMsg) ≠
      { winner := "Runners", reason := "Hunter & Minion Defeated" } := by decide
  by_cases h1 : (s.players.filter (fun p => decide (p.role = Role.runner ∧ 0 < p.hp))).length = 0
  · have e : checkWinCondition s = some { winner := "Hunter", reason := "Runners Eliminated" } := by
      simp only [checkWinCondition]
      rw [if_pos h1]
    refine ⟨⟨fun _ => h1, fun _ => e⟩, ?_, ?_⟩
    · constructor
      · intro hc
        rw [e] at hc
        exact absurd (Option.some.inj hc) hne
      · rintro ⟨hne0, _⟩
        exact absurd h1 hne0
    · constructor
      · intro hc
        rw [e] at hc
        exact Option.noConfusion hc
      · rintro ⟨hne0, _⟩
        exact absurd h1 hne0
  · by_cases h2 : ((s.players.find? (fun p => decide (p.role = Role.hunter ∧ 0 < p.hp))).isNone = true ∧
        (match s.minion with | some m => decide (0 < m.hp) | none => false) = false)
    · have e : checkWinCondition s =
          some { winner := "Runners", reason := "Hunter & Minion Defeated" } := by
        simp only [checkWinCondition]
        rw [if_neg h1, if_pos h2]
      have hh : ¬ hunterAlive s := (hunter_isNone_iff s).mp h2.1
      have hm : ¬ minionAliveP s := by
        intro hma
        have := (minionAliveB_iff s).mpr hma
        rw [h2.2] at this
        exact Bool.false_ne_true this
      refine ⟨?_, ⟨fun _ => ⟨h1, hh, hm⟩, fun _ => e⟩, ?_⟩
      · constructor
        · intro hc
          rw [e] at hc
          exact absurd (Option.some.inj hc).symm hne
        · intro h0
          exact absurd h0 h1
      · constructor
        · intro hc
          rw [e] at hc
          exact Option.noConfusion hc
        · rintro ⟨_, hor⟩
          rcases hor with h | h
          · exact absurd h hh
          · exact absurd h hm
    · have e : checkWinCondition s = none := by
        simp only [checkWinCondition]
        rw [if_neg h1, if_neg h2]
      have hor : hunterAlive s ∨ minionAliveP s := by
        rcases not_and_or.mp h2 with h | h
        · left
          have hs : (s.players.find? (fun p => decide (p.role = Role.hunter ∧ 0 < p.hp))).isSome = true := by
            cases hfind : s.players.find? (fun p => decide (p.role = Role.hunter ∧ 0 < p.hp)) with
            | none => exact absurd rfl (hfind ▸ h)
            | some p => rfl
          rcases List.find?_isSome.mp hs with ⟨p, hp1, hp2⟩
          exact ⟨p, hp1, by simpa using hp2⟩
        · right
          exact (minionAliveB_iff s).mp (by
            cases hb : (match s.minion with | some m => decide (0 < m.hp) | none => false) with
            | false => exact absurd hb h
            | true => rfl)
      refine ⟨?_, ?_, ⟨fun _ => ⟨h1, hor⟩, fun _ => e⟩⟩
      · constructor
        · intro hc
          rw [e] at hc
          exact Option.noConfusion hc
        · intro h0
          exact absurd h0 h1
      · constructor
        · intro hc
          rw [e] at hc
          exact Option.noConfusion hc
        · rintro ⟨_, hh, hm⟩
          rcases hor with h | h
          · exact absurd h hh
          · exact absurd h hm

/-- C6: `minion-hit` with no Minion present changes nothing and
broadcasts nothing; otherwise the Minion's hp drops by `damage` with
no floor clamp (broadcast unclamped), and the Minion is removed iff
the result is ≤ 0, with the win-condition evaluator invoked exactly in
that removal case. -/
theorem minionHit_characterization (s : GameState) (dmg : ℚ) :
    (s.minion = none → minionHitOp s dmg = (s, [])) ∧
    (∀ m, s.minion = some m →
      (m.hp - dmg ≤ 0 →
        (minionHitOp s dmg).1 = { s with minion := none } ∧
        (minionHitOp s dmg).2 =
          OutEvent.minionHitEv (m.hp - dmg) :: winBroadcast { s with minion := none }) ∧
      (¬ m.hp - dmg ≤ 0 →
        (minionHitOp s dmg).1 = { s with minion := some { m with hp := m.hp - dmg } } ∧
        (minionHitOp s dmg).2 = [OutEvent.minionHitEv (m.hp - dmg)])) := by
  refine ⟨fun h => by simp [minionHitOp, h], fun m hm => ⟨fun hle => ?_, fun hgt => ?_⟩⟩
  · constructor
    · simp [minionHitOp, hm, hle]
    · simp [minionHitOp, hm, hle]
  · constructor
    · simp [minionHitOp, hm, hgt]
    · simp [minionHitOp, hm, hgt]

/-! ### `hit` handler helpers -/

theorem dmgMap_find? (tid : String) (v : ℚ) (ps : List Player) (x : String) :
    (dmgMap tid v ps).find? (fun p => decide (p.id = x)) =
      (ps.find? (fun p => decide (p.id = x))).map
        (fun p => if p.id = tid then { p with hp := v } else p) := by
  unfold dmgMap
  exact find?_map_of_id (fun p => by by_cases h : p.id = tid <;> simp [h]) ps x

theorem healMap_find? (s0 : String) (ps : List Player) (x : String) :
    (healMap s0 ps).find? (fun p => decide (p.id = x)) =
      (ps.find? (fun p => decide (p.id = x))).map
        (fun p => if p.id = s0 then { p with hp := min 150 (p.hp + 20) } else p) := by
  unfold healMap
  exact find?_map_of_id (fun p => by by_cases h : p.id = s0 <;> simp [h]) ps x

theorem lookupP_id {s : GameState} {x : String} {p : Player} (h : lookupP s x = some p) :
    p.id = x := by
  have h' : s.players.find? (fun q => decide (q.id = x)) = some p := h
  have := List.find?_some h'
  simpa using this

theorem dmgMap_role (tid : String) (v : ℚ) (p : Player) :
    ((fun p => if p.id = tid then { p with hp := v } else p) p).role = p.role := by
  by_cases h : p.id = tid <;> simp [h]

/-- When the heal rule does not fire, `hit` applies only the clamped
damage to the target. -/
theorem hitOp_players_no_heal (s : GameState) (tid : String) (sid : Option String) (dmg : ℚ)
    (t : Player) (ht : lookupP s tid = some t) (hnh : ¬ healCond s t sid dmg) :
    (hitOp s tid sid dmg).players = dmgMap tid (max 0 (t.hp - dmg)) s.players := by
  have ht' : s.players.find? (fun p => decide (p.id = tid)) = some t := ht
  by_cases h0 : max 0 (t.hp - dmg) = 0
  · cases hsid : sid with
    | none => simp [hitOp, ht', h0]
    | some s0 =>
      cases hfs : lookupP s s0 with
      | none =>
        have hfs2 : s.players.find? (fun p => decide (p.id = s0)) = none := hfs
        have hfs' : (dmgMap tid (max 0 (t.hp - dmg)) s.players).find?
            (fun p => decide (p.id = s0)) = none := by
          rw [dmgMap_find?, hfs2]
          rfl
        rw [h0] at hfs'
        simp [hitOp, ht', h0, hfs']
      | some src =>
        have hfs2 : s.players.find? (fun p => decide (p.id = s0)) = some src := hfs
        have hr : ¬ src.role = Role.hunter := by
          intro hr
          exact hnh ⟨h0, s0, src, hsid, hfs, hr⟩
        have hfs' : (dmgMap tid (max 0 (t.hp - dmg)) s.players).find?
            (fun p => decide (p.id = s0)) =
            some (if src.id = tid then { src with hp := max 0 (t.hp - dmg) } else src) := by
          rw [dmgMap_find?, hfs2]
          rfl
        have hr' : ¬ (if src.id = tid then { src with hp := max 0 (t.hp - dmg) } else src).role
            = Role.hunter := by
          have := dmgMap_role tid (max 0 (t.hp - dmg)) src
          simpa [this] using hr
        rw [h0] at hfs' hr'
        simp [hitOp, ht', h0, hfs', hr']
  · simp [hitOp, ht', h0]

/-- When the heal rule fires for source `s0`, `hit` applies the
clamped damage to the target and then the capped heal to `s0`. -/
theorem hitOp_players_heal (s : GameState) (tid : String) (sid : Option String) (dmg : ℚ)
    (t : Player) (ht : lookupP s tid = some t) (s0 : String) (hsid : sid = some s0)
    (hh : healCond s t sid dmg) :
    (hitOp s tid sid dmg).players =
      healMap s0 (dmgMap tid (max 0 (t.hp - dmg)) s.players) := by
  have ht' : s.players.find? (fun p => decide (p.id = tid)) = some t := ht
  rw [hsid] at hh
  obtain ⟨h0, s0', src, heq, hfs, hrole⟩ := hh
  obtain rfl : s0 = s0' := Option.some.inj heq
  have hfs2 : s.players.find? (fun p => decide (p.id = s0)) = some src := hfs
  have hfs' : (dmgMap tid (max 0 (t.hp - dmg)) s.players).find?
      (fun p => decide (p.id = s0)) =
      some (if src.id = tid then { src with hp := max 0 (t.hp - dmg) } else src) := by
    rw [dmgMap_find?, hfs2]
    rfl
  have hr' : (if src.id = tid then { src with hp := max 0 (t.hp - dmg) } else src).role
      = Role.hunter := by
    have := dmgMap_role tid (max 0 (t.hp - dmg)) src
    simpa [this] using hrole
  rw [h0] at hfs' hr'
  simp [hitOp, ht', h0, hsid, hfs', hr']

/-- C2: a `hit` on an existing target sets the target's hp to
`max 0 (hp - damage)`; when the resulting hp is exactly 0 and a
present `sourceId` names an existing Hunter, that source's hp is
raised by 20 capped at 150 (reading the roster after the target
update, so a Hunter self-kill heals from the clamped 0); the heal keys
on hp equal to 0 rather than on a transition into 0, so a further
nonnegative-damage hit on an already-dead target with the same Hunter
source heals again; every other player is untouched. -/
theorem hit_characterization (s : GameState) (tid : String) (sid : Option String) (dmg : ℚ)
    (t : Player) (ht : lookupP s tid = some t) :
    (¬ (healCond s t sid dmg ∧ sid = some tid) →
       hpOf (hitOp s tid sid dmg) tid = some (max 0 (t.hp - dmg))) ∧
    ((healCond s t sid dmg ∧ sid = some tid) →
       hpOf (hitOp s tid sid dmg) tid = some (min 150 (max 0 (t.hp - dmg) + 20))) ∧
    (∀ s0, sid = some s0 → s0 ≠ tid → healCond s t sid dmg →
       hpOf (hitOp s tid sid dmg) s0 = (hpOf s s0).map (fun h => min 150 (h + 20))) ∧
    (∀ x, x ≠ tid → (healCond s t sid dmg → sid ≠ some x) →
       lookupP (hitOp s tid sid dmg) x = lookupP s x) ∧
    (t.hp = 0 → 0 ≤ dmg → ∀ s0, sid = some s0 → s0 ≠ tid →
       (∃ src, lookupP s s0 = some src ∧ src.role = Role.hunter) →
       hpOf (hitOp s tid sid dmg) s0 = (hpOf s s0).map (fun h => min 150 (h + 20))) := by
  have ht' : s.players.find? (fun p => decide (p.id = tid)) = some t := ht
  have htid : t.id = tid := lookupP_id ht
  have key3 : ∀ s0, sid = some s0 → s0 ≠ tid → healCond s t sid dmg →
      hpOf (hitOp s tid sid dmg) s0 = (hpOf s s0).map (fun h => min 150 (h + 20)) := by
    intro s0 hsid hne hh
    have hplayers := hitOp_players_heal s tid sid dmg t ht s0 hsid hh
    obtain ⟨h0, s0', src, heq, hfs, hrole⟩ := id hh
    rw [hsid] at heq
    obtain rfl : s0 = s0' := Option.some.inj heq
    have hfs2 : s.players.find? (fun p => decide (p.id = s0)) = some src := hfs
    have hsrcid : src.id = s0 := lookupP_id hfs
    simp only [hpOf, lookupP]
    rw [hplayers, healMap_find?, dmgMap_find?, hfs2]
    simp [hsrcid, hne]
  refine ⟨?_, ?_, key3, ?_, ?_⟩
  · intro hn
    by_cases hh : healCond s t sid dmg
    · obtain ⟨h0, s0, src, hsid, hfs, hrole⟩ := id hh
      have hplayers := hitOp_players_heal s tid sid dmg t ht s0 hsid hh
      have hs0ne : s0 ≠ tid := by
        intro he
        exact hn ⟨hh, by rw [hsid, he]⟩
      simp only [hpOf, lookupP]
      rw [hplayers, healMap_find?, dmgMap_find?, ht']
      simp [htid, Ne.symm hs0ne]
    · have hplayers := hitOp_players_no_heal s tid sid dmg t ht hh
      simp only [hpOf, lookupP]
      rw [hplayers, dmgMap_find?, ht']
      simp [htid]
  · rintro ⟨hh, hsidt⟩
    have hplayers := hitOp_players_heal s tid sid dmg t ht tid hsidt hh
    simp only [hpOf, lookupP]
    rw [hplayers, healMap_find?, dmgMap_find?, ht']
    simp [htid]
  · intro x hx himp
    by_cases hh : healCond s t sid dmg
    · obtain ⟨h0, s0, src, hsid, hfs, hrole⟩ := id hh
      have hplayers := hitOp_players_heal s tid sid dmg t ht s0 hsid hh
      have hs0x : s0 ≠ x := by
        intro he
        exact (himp hh) (he ▸ hsid)
      simp only [lookupP]
      rw [hplayers, healMap_find?, dmgMap_find?]
      cases hlx : s.players.find? (fun p => decide (p.id = x)) with
      | none => simp
      | some p =>
        have hpid : p.id = x := by simpa using List.find?_some hlx
        simp [hpid, hx, Ne.symm hs0x]
    · have hplayers := hitOp_players_no_heal s tid sid dmg t ht hh
      simp only [lookupP]
      rw [hplayers, dmgMap_find?]
      cases hlx : s.players.find? (fun p => decide (p.id = x)) with
      | none => simp
      | some p =>
        have hpid : p.id = x := by simpa using List.find?_some hlx
        simp [hpid, hx]
  · intro h00 hd s0 hsid hne hex
    obtain ⟨src, hfs, hrole⟩ := hex
    have h0 : max 0 (t.hp - dmg) = 0 := by
      have hle : t.hp - dmg ≤ 0 := by
        rw [h00]
        linarith
      exact max_eq_left hle
    exact key3 s0 hsid hne ⟨h0, s0, src, hsid, hfs, hrole⟩

theorem lookup_map_role {g : Player → Player} (hgid : ∀ p, (g p).id = p.id)
    (hgrole : ∀ p, (g p).role = p.role) (ps : List Player) (x : String) :
    ((ps.map g).find? (fun p => decide (p.id = x))).map Player.role =
      (ps.find? (fun p => decide (p.id = x))).map Player.role := by
  rw [find?_map_of_id hgid]
  cases ps.find? (fun p => decide (p.id = x)) with
  | none => rfl
  | some p => simp [hgrole p]

theorem hitOp_no_target (s : GameState) (tid : String) (sid : Option String) (dmg : ℚ)
    (h : s.players.find? (fun p => decide (p.id = tid)) = none) :
    hitOp s tid sid dmg = s := by
  simp [hitOp, h]

/-- A `hit` never changes any player's role. -/
theorem hitOp_lookup_role (s : GameState) (tid : String) (sid : Option String) (dmg : ℚ)
    (x : String) :
    (lookupP (hitOp s tid sid dmg) x).map Player.role = (lookupP s x).map Player.role := by
  cases ht : s.players.find? (fun p => decide (p.id = tid)) with
  | none => rw [hitOp_no_target s tid sid dmg ht]
  | some t =>
    have ht' : lookupP s tid = some t := ht
    have hgid : ∀ p : Player,
        ((fun p => if p.id = tid then { p with hp := max 0 (t.hp - dmg) } else p) p).id = p.id := by
      intro p
      by_cases h : p.id = tid <;> simp [h]
    have hgrole := dmgMap_role tid (max 0 (t.hp - dmg))
    by_cases hh : healCond s t sid dmg
    · obtain ⟨h0, s0, src, hsid, hfs, hrole⟩ := id hh
      have hplayers := hitOp_players_heal s tid sid dmg t ht' s0 hsid hh
      have hHid : ∀ p : Player,
          ((fun p => if p.id = s0 then { p with hp := min 150 (p.hp + 20) } else p) p).id = p.id := by
        intro p
        by_cases h : p.id = s0 <;> simp [h]
      have hHrole : ∀ p : Player,
          ((fun p => if p.id = s0 then { p with hp := min 150 (p.hp + 20) } else p) p).role = p.role := by
        intro p
        by_cases h : p.id = s0 <;> simp [h]
      simp only [lookupP]
      rw [hplayers]
      unfold healMap dmgMap
      rw [lookup_map_role hHid hHrole, lookup_map_role hgid hgrole]
    · have hplayers := hitOp_players_no_heal s tid sid dmg t ht' hh
      simp only [lookupP]
      rw [hplayers]
      unfold dmgMap
      rw [lookup_map_role hgid hgrole]

/-- Witness for C2: the spec's own scenario.  Runner `"r"` at hp 5 is
hit for 5 by Hunter `"h"`: the Runner drops to 0 and the Hunter is
healed from 100 to 120; a second identical hit on the dead Runner
heals the Hunter again, to 140. -/
theorem hit_characterization_witness :
    hpOf (hitOp sHR "r" (some "h") 5) "r" = some 0 ∧
    hpOf (hitOp sHR "r" (some "h") 5) "h" = some 120 ∧
    hpOf (hitOp (hitOp sHR "r" (some "h") 5) "r" (some "h") 5) "h" = some 140 := by
  have hhc : healCond sHR runnerR (some "h") 5 := by
    refine ⟨by simp [runnerR], "h", hunterH, rfl, rfl, rfl⟩
  have h1 := hit_characterization sHR "r" (some "h") 5 runnerR rfl
  have hr : hpOf (hitOp sHR "r" (some "h") 5) "r" = some 0 := by
    have he := h1.1 (by
      rintro ⟨_, hc⟩
      exact absurd (Option.some.inj hc) (by decide))
    rw [he]
    simp [runnerR]
  have hh : hpOf (hitOp sHR "r" (some "h") 5) "h" = some 120 := by
    have he := h1.2.2.1 "h" rfl (by decide) hhc
    rw [he]
    show Option.map _ (some hunterH.hp) = _
    simp [hunterH]
    norm_num [min_def]
  refine ⟨hr, hh, ?_⟩
  obtain ⟨t1, ht1, ht1hp⟩ :
      ∃ t1, lookupP (hitOp sHR "r" (some "h") 5) "r" = some t1 ∧ t1.hp = 0 := by
    have h' : (lookupP (hitOp sHR "r" (some "h") 5) "r").map Player.hp = some 0 := hr
    rcases Option.map_eq_some'.mp h' with ⟨t1, h1', h2'⟩
    exact ⟨t1, h1', h2'⟩
  obtain ⟨src1, hsrc1, hsrc1hp⟩ :
      ∃ src1, lookupP (hitOp sHR "r" (some "h") 5) "h" = some src1 ∧ src1.hp = 120 := by
    have h' : (lookupP (hitOp sHR "r" (some "h") 5) "h").map Player.hp = some 120 := hh
    rcases Option.map_eq_some'.mp h' with ⟨src1, h1', h2'⟩
    exact ⟨src1, h1', h2'⟩
  have hsrc1role : src1.role = Role.hunter := by
    have hroles := hitOp_lookup_role sHR "r" (some "h") 5 "h"
    rw [hsrc1] at hroles
    have : lookupP sHR "h" = some hunterH := rfl
    rw [this] at hroles
    simpa [hunterH] using Option.some.inj hroles
  have hhc2 : healCond (hitOp sHR "r" (some "h") 5) t1 (some "h") 5 := by
    refine ⟨?_, "h", src1, rfl, hsrc1, hsrc1role⟩
    rw [ht1hp]
    norm_num [max_def]
  have h2 := hit_characterization (hitOp sHR "r" (some "h") 5) "r" (some "h") 5 t1 ht1
  have he := h2.2.2.1 "h" rfl (by decide) hhc2
  rw [he, hh]
  show some (min 150 (120 + 20)) = some 140
  norm_num [min_def]

/-! ### `start-game` helpers -/

theorem countP_id_eq_one {ps : List Player} (hnd : (ps.map Player.id).Nodup)
    {hid : String} (hmem : hid ∈ ps.map Player.id) :
    ps.countP (fun p => decide (p.id = hid)) = 1 := by
  have h1 : ps.countP (fun p => decide (p.id = hid)) =
      (ps.map Player.id).countP (fun i => decide (i = hid)) := by
    rw [List.countP_map]
    rfl
  have h2 : (ps.map Player.id).countP (fun i => decide (i = hid)) =
      (ps.map Player.id).count hid := by
    rw [List.count_eq_countP]
    exact List.countP_congr (fun x _ => by simp)
  rw [h1, h2]
  exact List.count_eq_one_of_mem hnd hmem

/-- C1: `start-game` on a roster of N ≥ 1 players makes the player at
the drawn index the unique Hunter and the other N−1 players Runners,
resets everyone to hp 100 and weapon "none", spawns a fresh Minion at
(0,0) with hp 500 and sets `started`; on an empty roster it is a
no-op. -/
theorem startGame_characterization (s : GameState) (k : ℕ)
    (hnd : (s.players.map Player.id).Nodup) :
    (s.players = [] → startGameOp s k = s) ∧
    (k < s.players.length →
      hunterCount (startGameOp s k) = 1 ∧
      runnerCount (startGameOp s k) = s.players.length - 1 ∧
      (∀ p ∈ (startGameOp s k).players, p.hp = 100 ∧ p.weapon = "none") ∧
      (startGameOp s k).minion = some { x := 0, z := 0, hp := 500 } ∧
      (startGameOp s k).started = true) := by
  constructor
  · intro h
    simp [startGameOp, h]
  · intro hk
    have hne : s.players ≠ [] := by
      intro h
      rw [h] at hk
      exact Nat.not_lt_zero k hk
    have hempty : ¬ ((s.players.map Player.id).isEmpty = true) := by
      simp [List.isEmpty_iff, hne]
    have hidmem : (s.players.map Player.id).getD k "" ∈ s.players.map Player.id := by
      have hk' : k < (s.players.map Player.id).length := by simpa using hk
      rw [List.getD_eq_getElem?_getD, List.getElem?_eq_getElem hk']
      exact List.getElem_mem hk'
    have hplayers : (startGameOp s k).players = s.players.map (fun p =>
        { p with role := if p.id = (s.players.map Player.id).getD k "" then Role.hunter
                         else Role.runner,
                 hp := 100, weapon := "none" }) := by
      simp only [startGameOp]
      rw [if_neg hempty]
    have hrest : (startGameOp s k).minion = some { x := 0, z := 0, hp := 500 } ∧
        (startGameOp s k).started = true := by
      constructor <;> (simp only [startGameOp]; rw [if_neg hempty])
    refine ⟨?_, ?_, ?_, hrest.1, hrest.2⟩
    · unfold hunterCount
      rw [hplayers, ← List.countP_eq_length_filter, List.countP_map]
      have hcomp : ((fun p => decide (p.role = Role.hunter)) ∘ (fun p : Player =>
          { p with role := if p.id = (s.players.map Player.id).getD k "" then Role.hunter
                           else Role.runner,
                   hp := 100, weapon := "none" })) =
          (fun p => decide (p.id = (s.players.map Player.id).getD k "")) := by
        funext p
        by_cases h : p.id = (s.players.map Player.id).getD k "" <;>
          simp [Function.comp, h]
      rw [hcomp]
      exact countP_id_eq_one hnd hidmem
    · unfold runnerCount
      rw [hplayers, ← List.countP_eq_length_filter, List.countP_map]
      have hcount := countP_id_eq_one hnd hidmem
      have htot := List.length_eq_countP_add_countP
        (p := fun p : Player => decide (p.id = (s.players.map Player.id).getD k "")) s.players
      have hcomp : s.players.countP ((fun p => decide (p.role = Role.runner)) ∘ (fun p : Player =>
          { p with role := if p.id = (s.players.map Player.id).getD k "" then Role.hunter
                           else Role.runner,
                   hp := 100, weapon := "none" })) =
          s.players.countP (fun a =>
            ¬ (decide (a.id = (s.players.map Player.id).getD k "") = true)) := by
        refine List.countP_congr (fun x _ => ?_)
        by_cases h : x.id = (s.players.map Player.id).getD k "" <;>
          simp [Function.comp, h]
      rw [hcomp]
      omega
    · intro p hp
      rw [hplayers] at hp
      rcases List.mem_map.mp hp with ⟨q, _, rfl⟩
      exact ⟨rfl, rfl⟩

/-- Witness for C1: starting the two-player room `sAB` with drawn
index 1 yields exactly one Hunter, one Runner, full resets and a fresh
Minion; starting the empty room is a no-op. -/
theorem startGame_characterization_witness :
    hunterCount (startGameOp sAB 1) = 1 ∧
    runnerCount (startGameOp sAB 1) = 1 ∧
    (∀ p ∈ (startGameOp sAB 1).players, p.hp = 100 ∧ p.weapon = "none") ∧
    (startGameOp sAB 1).minion = some { x := 0, z := 0, hp := 500 } ∧
    (startGameOp sAB 1).started = true ∧
    startGameOp initState 0 = initState := by
  have h := (startGame_characterization sAB 1 (by decide)).2 (by decide)
  have h0 := (startGame_characterization initState 0 (by decide)).1 rfl
  exact ⟨h.1, h.2.1, h.2.2.1, h.2.2.2.1, h.2.2.2.2, h0⟩

/-! ### Minion scan characterization -/

theorem scanAux_isSome (m : Minion) (ps : List Player) (acc : Option Player × ℝ)
    (h : acc.1.isSome = true) : (scanNearestAux m ps acc).1.isSome = true := by
  induction ps generalizing acc with
  | nil => exact h
  | cons p ps ih =>
    simp only [scanNearestAux]
    apply ih
    by_cases h1 : p.role = Role.runner ∧ 0 < p.hp
    · rw [if_pos h1]
      by_cases h2 : hyp (p.x - m.x) (p.z - m.z) < acc.2
      · rw [if_pos h2]
        rfl
      · rw [if_neg h2]
        exact h
    · rw [if_neg h1]
      exact h

theorem scanAux_none_eq (m : Minion) (ps : List Player) (acc : Option Player × ℝ)
    (h : (scanNearestAux m ps acc).1 = none) : scanNearestAux m ps acc = acc := by
  induction ps generalizing acc with
  | nil => rfl
  | cons p ps ih =>
    simp only [scanNearestAux] at h ⊢
    by_cases h1 : p.role = Role.runner ∧ 0 < p.hp
    · rw [if_pos h1] at h ⊢
      by_cases h2 : hyp (p.x - m.x) (p.z - m.z) < acc.2
      · rw [if_pos h2] at h
        have hs := scanAux_isSome m ps (some p, hyp (p.x - m.x) (p.z - m.z)) rfl
        rw [h] at hs
        simp at hs
      · rw [if_neg h2] at h ⊢
        exact ih acc h
    · rw [if_neg h1] at h ⊢
      exact ih acc h

theorem scanAux_le (m : Minion) (ps : List Player) (acc : Option Player × ℝ) :
    (scanNearestAux m ps acc).2 ≤ acc.2 ∧
    ∀ q ∈ ps, qualifies q → (scanNearestAux m ps acc).2 ≤ pdist m q := by
  induction ps generalizing acc with
  | nil => exact ⟨le_refl _, by simp⟩
  | cons p ps ih =>
    simp only [scanNearestAux]
    by_cases h1 : p.role = Role.runner ∧ 0 < p.hp
    · rw [if_pos h1]
      by_cases h2 : hyp (p.x - m.x) (p.z - m.z) < acc.2
      · rw [if_pos h2]
        obtain ⟨ha, hb⟩ := ih (some p, hyp (p.x - m.x) (p.z - m.z))
        refine ⟨ha.trans h2.le, ?_⟩
        intro q hq hql
        rcases List.mem_cons.mp hq with rfl | hq'
        · exact ha
        · exact hb q hq' hql
      · rw [if_neg h2]
        obtain ⟨ha, hb⟩ := ih acc
        refine ⟨ha, ?_⟩
        intro q hq hql
        rcases List.mem_cons.mp hq with rfl | hq'
        · exact ha.trans (not_lt.mp h2)
        · exact hb q hq' hql
    · rw [if_neg h1]
      obtain ⟨ha, hb⟩ := ih acc
      refine ⟨ha, ?_⟩
      intro q hq hql
      rcases List.mem_cons.mp hq with rfl | hq'
      · exact absurd hql h1
      · exact hb q hq' hql

theorem scanAux_some (m : Minion) (ps : List Player) (acc : Option Player × ℝ)
    (t : Player) (d : ℝ) (h : scanNearestAux m ps acc = (some t, d)) :
    acc = (some t, d) ∨
    ∃ l1 l2, ps = l1 ++ t :: l2 ∧ qualifies t ∧ d = pdist m t ∧ d < acc.2 ∧
      ∀ q ∈ l1, qualifies q → d < pdist m q := by
  induction ps generalizing acc with
  | nil => exact Or.inl h
  | cons p ps ih =>
    simp only [scanNearestAux] at h
    by_cases h1 : p.role = Role.runner ∧ 0 < p.hp
    · rw [if_pos h1] at h
      by_cases h2 : hyp (p.x - m.x) (p.z - m.z) < acc.2
      · rw [if_pos h2] at h
        rcases ih _ h with hacc | ⟨l1, l2, hps, hq, hd, hlt, hall⟩
        · have hpt : p = t := by
            have := congrArg Prod.fst hacc
            exact Option.some.inj this
          have hdd : hyp (p.x - m.x) (p.z - m.z) = d := congrArg Prod.snd hacc
          subst hpt
          right
          exact ⟨[], ps, rfl, h1, by rw [← hdd]; rfl, by rw [← hdd]; exact h2, by simp⟩
        · right
          refine ⟨p :: l1, l2, by rw [hps]; rfl, hq, hd, lt_trans hlt h2, ?_⟩
          intro q hq'
          rcases List.mem_cons.mp hq' with rfl | hq''
          · intro _
            exact hlt
          · exact hall q hq''
      · rw [if_neg h2] at h
        rcases ih _ h with hacc | ⟨l1, l2, hps, hq, hd, hlt, hall⟩
        · exact Or.inl hacc
        · right
          refine ⟨p :: l1, l2, by rw [hps]; rfl, hq, hd, hlt, ?_⟩
          intro q hq'
          rcases List.mem_cons.mp hq' with rfl | hq''
          · intro _
            exact lt_of_lt_of_le hlt (not_lt.mp h2)
          · exact hall q hq''
    · rw [if_neg h1] at h
      rcases ih _ h with hacc | ⟨l1, l2, hps, hq, hd, hlt, hall⟩
      · exact Or.inl hacc
      · right
        refine ⟨p :: l1, l2, by rw [hps]; rfl, hq, hd, hlt, ?_⟩
        intro q hq'
        rcases List.mem_cons.mp hq' with rfl | hq''
        · intro hql
          exact absurd hql h1
        · exact hall q hq''

/-- Full characterization of a successful scan: the selected player is
a living Runner at distance `d` below the `9999` sentinel, no
qualifying player is strictly closer, and every qualifying player
scanned before the selected one is strictly farther (the first
strictly-closer candidate wins). -/
theorem scanNearest_some (m : Minion) (ps : List Player) (t : Player) (d : ℝ)
    (h : scanNearest m ps = (some t, d)) :
    qualifies t ∧ d = pdist m t ∧ d < 9999 ∧
    (∀ q ∈ ps, qualifies q → d ≤ pdist m q) ∧
    ∃ l1 l2, ps = l1 ++ t :: l2 ∧ ∀ q ∈ l1, qualifies q → d < pdist m q := by
  have h' : scanNearestAux m ps (none, 9999) = (some t, d) := h
  rcases scanAux_some m ps (none, 9999) t d h' with hacc | ⟨l1, l2, hps, hq, hd, hlt, hall⟩
  · exact absurd (congrArg Prod.fst hacc) (by simp)
  · have hb := (scanAux_le m ps (none, 9999)).2
    rw [h'] at hb
    exact ⟨hq, hd, by simpa using hlt, hb, l1, l2, hps, hall⟩

/-- A failed scan means every living Runner is at distance ≥ 9999. -/
theorem scanNearest_none (m : Minion) (ps : List Player) (v : ℝ)
    (h : scanNearest m ps = (none, v)) :
    ∀ q ∈ ps, qualifies q → 9999 ≤ pdist m q := by
  have h' : scanNearestAux m ps (none, 9999) = (none, v) := h
  have he : scanNearestAux m ps (none, 9999) = (none, 9999) :=
    scanAux_none_eq m ps (none, 9999) (by rw [h'])
  have hb := (scanAux_le m ps (none, 9999)).2
  rw [he] at hb
  exact hb

/-- Witness for C6: the spec's own example, a Minion at hp 10 hit for
15 damage: the unclamped hp −5 is broadcast and the Minion is removed;
the evaluator finds a living Runner, so no game-over follows. -/
theorem minionHit_characterization_witness :
    (minionHitOp sMin10 15).1.minion = none ∧
    (minionHitOp sMin10 15).2 = [OutEvent.minionHitEv (-5)] := by
  have h := ((minionHit_characterization sMin10 15).2 { x := 0, z := 0, hp := 10 } rfl).1
    (by norm_num)
  refine ⟨by rw [h.1], ?_⟩
  rw [h.2]
  have hw : winBroadcast { sMin10 with minion := none } = [] := by decide
  rw [hw]
  norm_num

/-! ### Tick reduction lemmas -/

theorem tickOp_not_started (s : GameState) (h : ¬ s.started = true) : tickOp s = s := by
  simp [tickOp, h]

theorem tickOp_no_minion (s : GameState) (h : s.minion = none) : tickOp s = s := by
  simp [tickOp, h]

theorem tickOp_none_target (s : GameState) (m : Minion) (v : ℝ)
    (hs : s.started = true) (hm : s.minion = some m)
    (hscan : scanNearest m s.players = (none, v)) : tickOp s = s := by
  simp [tickOp, hs, hm, hscan]

theorem tickOp_zero_dist (s : GameState) (m : Minion) (t : Player) (d : ℝ)
    (hs : s.started = true) (hm : s.minion = some m)
    (hscan : scanNearest m s.players = (some t, d)) (hd : ¬ 0 < d) : tickOp s = s := by
  have hchar := scanNearest_some m s.players t d hscan
  have hlen : Real.sqrt ((t.x - m.x) * (t.x - m.x) + (t.z - m.z) * (t.z - m.z)) = d :=
    hchar.2.1.symm
  simp only [tickOp, hs, hm, hscan, if_true]
  rw [hlen]
  rw [if_neg hd]

theorem tickOp_eq_damage (s : GameState) (m : Minion) (t : Player) (d : ℝ)
    (hs : s.started = true) (hm : s.minion = some m)
    (hscan : scanNearest m s.players = (some t, d)) (hd : 0 < d) (h35 : d < 3.5) :
    tickOp s = { s with
      minion := some { x := m.x + (t.x - m.x) / d * 0.15,
                       z := m.z + (t.z - m.z) / d * 0.15, hp := m.hp },
      players := s.players.map (fun q =>
        if q.id = t.id then { q with hp := max 0 (q.hp - 0.5) } else q) } := by
  have hchar := scanNearest_some m s.players t d hscan
  have hlen : Real.sqrt ((t.x - m.x) * (t.x - m.x) + (t.z - m.z) * (t.z - m.z)) = d :=
    hchar.2.1.symm
  simp only [tickOp, hs, hm, hscan, if_true]
  rw [hlen]
  rw [if_pos hd, if_pos h35]

theorem tickOp_eq_move_only (s : GameState) (m : Minion) (t : Player) (d : ℝ)
    (hs : s.started = true) (hm : s.minion = some m)
    (hscan : scanNearest m s.players = (some t, d)) (hd : 0 < d) (h35 : ¬ d < 3.5) :
    tickOp s = { s with
      minion := some { x := m.x + (t.x - m.x) / d * 0.15,
                       z := m.z + (t.z - m.z) / d * 0.15, hp := m.hp } } := by
  have hchar := scanNearest_some m s.players t d hscan
  have hlen : Real.sqrt ((t.x - m.x) * (t.x - m.x) + (t.z - m.z) * (t.z - m.z)) = d :=
    hchar.2.1.symm
  simp only [tickOp, hs, hm, hscan, if_true]
  rw [hlen]
  rw [if_pos hd, if_neg h35]

theorem hyp_mul (a b c : ℝ) (hc : 0 ≤ c) : hyp (a * c) (b * c) = hyp a b * c := by
  unfold hyp
  have h1 : a * c * (a * c) + b * c * (b * c) = (a * a + b * b) * (c * c) := by ring
  have h2 : (0 : ℝ) ≤ a * a + b * b := by
    nlinarith [mul_self_nonneg a, mul_self_nonneg b]
  rw [h1, Real.sqrt_mul h2, Real.sqrt_mul_self hc]

/-- Evaluation of the scan on a two-player roster whose first entry
does not qualify and whose second is a living Runner within the
sentinel distance. -/
theorem scan_pair (m : Minion) (pa pb : Player)
    (hna : ¬ (pa.role = Role.runner ∧ 0 < pa.hp))
    (hqb : pb.role = Role.runner ∧ 0 < pb.hp)
    (hlt : hyp (pb.x - m.x) (pb.z - m.z) < 9999) :
    scanNearest m [pa, pb] = (some pb, hyp (pb.x - m.x) (pb.z - m.z)) := by
  show scanNearestAux m [pa, pb] (none, 9999) = _
  simp only [scanNearestAux]
  rw [if_neg hna, if_pos hqb, if_pos (show hyp (pb.x - m.x) (pb.z - m.z) < (9999 : ℝ) from hlt)]

/-- Evaluation of the scan on a two-player roster whose first entry
does not qualify and whose second is a living Runner at or beyond the
sentinel distance: nobody is targeted. -/
theorem scan_pair_far (m : Minion) (pa pb : Player)
    (hna : ¬ (pa.role = Role.runner ∧ 0 < pa.hp))
    (hqb : pb.role = Role.runner ∧ 0 < pb.hp)
    (hge : ¬ hyp (pb.x - m.x) (pb.z - m.z) < 9999) :
    scanNearest m [pa, pb] = (none, 9999) := by
  show scanNearestAux m [pa, pb] (none, 9999) = _
  simp only [scanNearestAux]
  rw [if_neg hna, if_pos hqb,
    if_neg (show ¬ hyp (pb.x - m.x) (pb.z - m.z) < (9999 : ℝ) from hge)]

/-! ### Concrete tick evaluations -/

theorem sStart_players : sStart.players = [aHunter, bRunner] := rfl

theorem sMove_players : sMove.players = [aHunter, bMoved] := rfl

theorem sFar_players : sFar.players = [aHunter, bFar] := rfl

theorem hyp_bRunner : hyp (bRunner.x - minionFresh.x) (bRunner.z - minionFresh.z) = 0 := by
  simp [hyp, bRunner, minionFresh]

theorem hyp_bMoved : hyp (bMoved.x - minionFresh.x) (bMoved.z - minionFresh.z) = 1 := by
  simp [hyp, bMoved, minionFresh]

theorem hyp_bFar : hyp (bFar.x - minionFresh.x) (bFar.z - minionFresh.z) = 10000 := by
  have h : (10000 : ℝ) - 0 = 10000 := by norm_num
  simp only [hyp, bFar, minionFresh, h, sub_zero, mul_zero, add_zero, zero_mul]
  rw [Real.sqrt_mul_self (by norm_num : (0:ℝ) ≤ 10000)]

theorem scan_sStart : scanNearest minionFresh sStart.players = (some bRunner, 0) := by
  rw [sStart_players,
    scan_pair minionFresh aHunter bRunner (by simp [aHunter])
      ⟨rfl, by norm_num [bRunner]⟩ (by rw [hyp_bRunner]; norm_num), hyp_bRunner]

theorem scan_sMove : scanNearest minionFresh sMove.players = (some bMoved, 1) := by
  rw [sMove_players,
    scan_pair minionFresh aHunter bMoved (by simp [aHunter])
      ⟨rfl, by norm_num [bMoved]⟩ (by rw [hyp_bMoved]; norm_num), hyp_bMoved]

theorem scan_sFar : scanNearest minionFresh sFar.players = (none, 9999) := by
  rw [sFar_players]
  exact scan_pair_far minionFresh aHunter bFar (by simp [aHunter])
    ⟨rfl, by norm_num [bFar]⟩ (by rw [hyp_bFar]; norm_num)

/-- C7 (amended): on a minion AI tick with started = true, a Minion
present and the scan selecting a target at pre-movement distance `d`
with 0 < d < 3.5, the target's hp is reduced by 0.5 clamped at floor 0
(and no other player is touched); the code's `len > 0` guard excludes
distance exactly 0, so damage applies on (0, 3.5), not [0, 3.5). -/
theorem tick_contact_damage (s : GameState) (m : Minion) (t : Player) (d : ℝ)
    (hs : s.started = true) (hm : s.minion = some m)
    (hscan : scanNearest m s.players = (some t, d)) (hd : 0 < d) (h35 : d < 3.5) :
    (tickOp s).players = s.players.map (fun q =>
      if q.id = t.id then { q with hp := max 0 (q.hp - 0.5) } else q) := by
  rw [tickOp_eq_damage s m t d hs hm hscan hd h35]

/-- Witness for C7: the spec's own example — Minion at (0,0), Runner
`"b"` at (1,0) with hp 100, distance 1: one tick leaves the Runner at
hp 99.5. -/
theorem tick_contact_damage_witness :
    sMove.started = true ∧ sMove.minion = some minionFresh ∧
    scanNearest minionFresh sMove.players = (some bMoved, 1) ∧
    ((0:ℝ) < 1 ∧ (1:ℝ) < 3.5) ∧
    hpOf (tickOp sMove) "b" = some (199 / 2) := by
  refine ⟨rfl, rfl, scan_sMove, ⟨by norm_num, by norm_num⟩, ?_⟩
  have he := tick_contact_damage sMove minionFresh bMoved 1 rfl rfl scan_sMove
    (by norm_num) (by norm_num)
  simp only [hpOf, lookupP]
  rw [he]
  rw [find?_map_of_id
    (g := fun q => if q.id = bMoved.id then { q with hp := max 0 (q.hp - 0.5) } else q)
    (fun p => by by_cases h : p.id = bMoved.id <;> simp [h]) sMove.players "b"]
  rw [show sMove.players.find? (fun p => decide (p.id = "b")) = some bMoved from rfl]
  simp only [Option.map_some']
  rw [if_pos trivial]
  show some (max 0 (bMoved.hp - 0.5)) = some (199 / 2)
  norm_num [bMoved, max_def]

/-- Counterexample for C7 as stated: the reachable state `sStart` has
the Runner `"b"` at distance exactly 0 from the Minion — inside the
claim's interval [0, 3.5) — yet a tick changes nothing and the
Runner's hp stays 100 instead of dropping by 0.5. -/
theorem tick_contact_damage_counterexample :
    sStart.started = true ∧ sStart.minion = some minionFresh ∧
    scanNearest minionFresh sStart.players = (some bRunner, 0) ∧
    (0:ℝ) < 3.5 ∧ bRunner.hp = 100 ∧
    tickOp sStart = sStart ∧
    hpOf (tickOp sStart) "b" = some 100 := by
  have ht := tickOp_zero_dist sStart minionFresh bRunner 0 rfl rfl scan_sStart (by norm_num)
  refine ⟨rfl, rfl, scan_sStart, by norm_num, rfl, ht, ?_⟩
  rw [ht]
  rfl

/-- C8 (amended): on a tick with started = true and a Minion present,
a selected target is a living Runner at minimal Euclidean distance,
every qualifying player scanned earlier being strictly farther (first
strictly-closer wins), provided that distance is below the scan's 9999
sentinel; when 0 < d the Minion advances exactly 0.15 units along the
unit direction toward the target computed from pre-movement positions.
When the scan selects nobody, every living Runner is at distance
≥ 9999 and the tick leaves the state unchanged — so Runners at or
beyond 9999 are never targeted, contrary to the unamended claim. -/
theorem tick_targeting (s : GameState) (m : Minion)
    (hs : s.started = true) (hm : s.minion = some m) :
    (∀ t d, scanNearest m s.players = (some t, d) →
      (qualifies t ∧ d = pdist m t ∧ d < 9999 ∧
       (∀ q ∈ s.players, qualifies q → d ≤ pdist m q) ∧
       (∃ l1 l2, s.players = l1 ++ t :: l2 ∧ ∀ q ∈ l1, qualifies q → d < pdist m q)) ∧
      (0 < d →
        (tickOp s).minion = some { x := m.x + (t.x - m.x) / d * 0.15,
                                   z := m.z + (t.z - m.z) / d * 0.15, hp := m.hp } ∧
        hyp ((t.x - m.x) / d * 0.15) ((t.z - m.z) / d * 0.15) = 0.15)) ∧
    (∀ v, scanNearest m s.players = (none, v) →
      (∀ q ∈ s.players, qualifies q → 9999 ≤ pdist m q) ∧ tickOp s = s) := by
  constructor
  · intro t d hscan
    have hchar := scanNearest_some m s.players t d hscan
    refine ⟨hchar, fun hd => ⟨?_, ?_⟩⟩
    · by_cases h35 : d < 3.5
      · rw [tickOp_eq_damage s m t d hs hm hscan hd h35]
      · rw [tickOp_eq_move_only s m t d hs hm hscan hd h35]
    · have hdd : hyp (t.x - m.x) (t.z - m.z) = d := hchar.2.1.symm
      have hdne : d ≠ 0 := ne_of_gt hd
      have e1 : (t.x - m.x) / d * 0.15 = (t.x - m.x) * (0.15 / d) := by ring
      have e2 : (t.z - m.z) / d * 0.15 = (t.z - m.z) * (0.15 / d) := by ring
      rw [e1, e2, hyp_mul _ _ _ (by positivity), hdd]
      field_simp
  · intro v hscan
    exact ⟨scanNearest_none m s.players v hscan, tickOp_none_target s m v hs hm hscan⟩

/-- Witness for C8: in `sMove` the Runner at (1,0) is targeted at
distance 1 and the Minion steps from (0,0) to (0.15, 0), a step of
exactly 0.15 units. -/
theorem tick_targeting_witness :
    sMove.started = true ∧ sMove.minion = some minionFresh ∧
    scanNearest minionFresh sMove.players = (some bMoved, 1) ∧
    (tickOp sMove).minion = some { x := 0.15, z := 0, hp := 500 } ∧
    hyp ((bMoved.x - minionFresh.x) / 1 * 0.15) ((bMoved.z - minionFresh.z) / 1 * 0.15)
      = 0.15 := by
  have h := (tick_targeting sMove minionFresh rfl rfl).1 bMoved 1 scan_sMove
  have hmov := h.2 (by norm_num)
  refine ⟨rfl, rfl, scan_sMove, ?_, hmov.2⟩
  rw [hmov.1]
  norm_num [minionFresh, bMoved]

/-- Counterexample for C8 as stated: in the reachable state `sFar` the
only living Runner sits at distance 10000 ≥ 9999, the scan selects no
target at all, and the tick does not move the Minion — although the
claim as stated would have the Minion advance 0.15 units toward that
Runner. -/
theorem tick_targeting_counterexample :
    sFar.started = true ∧ sFar.minion = some minionFresh ∧
    lookupP sFar "b" = some bFar ∧ bFar.role = Role.runner ∧ bFar.hp = 100 ∧
    scanNearest minionFresh sFar.players = (none, 9999) ∧
    tickOp sFar = sFar ∧ (tickOp sFar).minion = some minionFresh := by
  have ht := tickOp_none_target sFar minionFresh 9999 rfl rfl scan_sFar
  exact ⟨rfl, rfl, rfl, rfl, rfl, scan_sFar, ht, by rw [ht]; rfl⟩

/-! ### Per-operation invariant lemmas -/

theorem ids_map_of_id {f : Player → Player} (hid : ∀ p, (f p).id = p.id) (ps : List Player) :
    (ps.map f).map Player.id = ps.map Player.id := by
  rw [List.map_map]
  exact List.map_congr_left (fun p _ => hid p)

theorem countRole_map {f : Player → Player} (hrole : ∀ p, (f p).role = p.role)
    (ps : List Player) (r : Role) :
    (ps.map f).countP (fun p => decide (p.role = r)) =
      ps.countP (fun p => decide (p.role = r)) := by
  rw [List.countP_map]
  exact List.countP_congr (fun p _ => by simp [Function.comp, hrole p])

theorem hpPred_map {P : ℚ → Prop} {f : Player → Player}
    (hf : ∀ p, P p.hp → P (f p).hp) (ps : List Player)
    (h : ∀ p ∈ ps, P p.hp) : ∀ p' ∈ ps.map f, P p'.hp := by
  intro p' hp'
  rcases List.mem_map.mp hp' with ⟨p, hp, rfl⟩
  exact hf p (h p hp)

theorem hunterCount_eq (s : GameState) :
    hunterCount s = s.players.countP (fun p => decide (p.role = Role.hunter)) :=
  (List.countP_eq_length_filter _ _).symm

theorem setPlayer_ids (ps : List Player) (np : Player) :
    (setPlayer ps np).map Player.id = ps.map Player.id ∨
    ((setPlayer ps np).map Player.id = ps.map Player.id ++ [np.id] ∧
      np.id ∉ ps.map Player.id) := by
  unfold setPlayer
  by_cases h : ps.any (fun q => decide (q.id = np.id)) = true
  · left
    rw [if_pos h]
    rw [List.map_map]
    refine List.map_congr_left (fun p _ => ?_)
    by_cases hp : p.id = np.id <;> simp [Function.comp, hp]
  · right
    rw [if_neg h]
    refine ⟨by simp, fun hmem => h ?_⟩
    rcases List.mem_map.mp hmem with ⟨q, hq, hqe⟩
    exact List.any_eq_true.mpr ⟨q, hq, by simp [hqe]⟩

theorem setPlayer_mem (ps : List Player) (np : Player) :
    ∀ p' ∈ setPlayer ps np, p' = np ∨ p' ∈ ps := by
  unfold setPlayer
  by_cases h : ps.any (fun q => decide (q.id = np.id)) = true
  · rw [if_pos h]
    intro p' hp'
    rcases List.mem_map.mp hp' with ⟨p, hp, rfl⟩
    by_cases hq : p.id = np.id
    · left
      simp [hq]
    · right
      simpa [hq] using hp
  · rw [if_neg h]
    intro p' hp'
    rcases List.mem_append.mp hp' with h' | h'
    · exact Or.inr h'
    · exact Or.inl (List.mem_singleton.mp h')

theorem setPlayer_countHunter_le (ps : List Player) (np : Player)
    (hnp : np.role = Role.runner) :
    (setPlayer ps np).countP (fun p => decide (p.role = Role.hunter)) ≤
      ps.countP (fun p => decide (p.role = Role.hunter)) := by
  unfold setPlayer
  by_cases h : ps.any (fun q => decide (q.id = np.id)) = true
  · rw [if_pos h, List.countP_map]
    refine List.countP_mono_left (fun p _ hcp => ?_)
    by_cases hq : p.id = np.id
    · simp only [Function.comp, hq, if_pos] at hcp
      rw [hnp] at hcp
      exact absurd (of_decide_eq_true hcp) (by decide)
    · simpa [Function.comp, hq] using hcp
  · rw [if_neg h, List.countP_append]
    simp [hnp]

theorem hitOp_hp_all (s : GameState) (tid : String) (sid : Option String) (dmg : ℚ)
    (P : ℚ → Prop)
    (hP : ∀ p ∈ s.players, P p.hp)
    (hclamp : ∀ a, P a → P (max 0 (a - dmg)))
    (hheal : ∀ a, P a → P (min 150 (a + 20))) :
    ∀ p ∈ (hitOp s tid sid dmg).players, P p.hp := by
  cases ht : s.players.find? (fun p => decide (p.id = tid)) with
  | none =>
    rw [hitOp_no_target s tid sid dmg ht]
    exact hP
  | some t =>
    have ht' : lookupP s tid = some t := ht
    have hPt : P t.hp := hP t (List.mem_of_find?_eq_some ht)
    have hP1 : ∀ p ∈ dmgMap tid (max 0 (t.hp - dmg)) s.players, P p.hp := by
      unfold dmgMap
      refine hpPred_map (fun p hp => ?_) s.players hP
      by_cases h : p.id = tid
      · simpa [h] using hclamp t.hp hPt
      · simpa [h] using hp
    by_cases hh : healCond s t sid dmg
    · obtain ⟨h0, s0, src, hsid, hfs, hrole⟩ := id hh
      rw [hitOp_players_heal s tid sid dmg t ht' s0 hsid hh]
      unfold healMap
      refine hpPred_map (fun p hp => ?_) _ hP1
      by_cases h : p.id = s0
      · simpa [h] using hheal p.hp hp
      · simpa [h] using hp
    · rw [hitOp_players_no_heal s tid sid dmg t ht' hh]
      exact hP1

theorem hitOp_started (s : GameState) (tid : String) (sid : Option String) (dmg : ℚ) :
    (hitOp s tid sid dmg).started = s.started := by
  cases ht : s.players.find? (fun p => decide (p.id = tid)) with
  | none => rw [hitOp_no_target s tid sid dmg ht]
  | some t =>
    have ht' : lookupP s tid = some t := ht
    by_cases hh : healCond s t sid dmg
    · obtain ⟨h0, s0, src, hsid, hfs, hrole⟩ := id hh
      have := hitOp_players_heal s tid sid dmg t ht' s0 hsid hh
      simp [hitOp, ht]
    · simp [hitOp, ht]

theorem hitOp_ids (s : GameState) (tid : String) (sid : Option String) (dmg : ℚ) :
    (hitOp s tid sid dmg).players.map Player.id = s.players.map Player.id := by
  cases ht : s.players.find? (fun p => decide (p.id = tid)) with
  | none =>
    rw [hitOp_no_target s tid sid dmg ht]
  | some t =>
    have ht' : lookupP s tid = some t := ht
    by_cases hh : healCond s t sid dmg
    · obtain ⟨h0, s0, src, hsid, hfs, hrole⟩ := id hh
      rw [hitOp_players_heal s tid sid dmg t ht' s0 hsid hh]
      unfold healMap dmgMap
      rw [ids_map_of_id (fun p => by by_cases h : p.id = s0 <;> simp [h]),
        ids_map_of_id (fun p => by by_cases h : p.id = tid <;> simp [h])]
    · rw [hitOp_players_no_heal s tid sid dmg t ht' hh]
      unfold dmgMap
      rw [ids_map_of_id (fun p => by by_cases h : p.id = tid <;> simp [h])]

theorem hitOp_countHunter (s : GameState) (tid : String) (sid : Option String) (dmg : ℚ) :
    (hitOp s tid sid dmg).players.countP (fun p => decide (p.role = Role.hunter)) =
      s.players.countP (fun p => decide (p.role = Role.hunter)) := by
  cases ht : s.players.find? (fun p => decide (p.id = tid)) with
  | none =>
    rw [hitOp_no_target s tid sid dmg ht]
  | some t =>
    have ht' : lookupP s tid = some t := ht
    by_cases hh : healCond s t sid dmg
    · obtain ⟨h0, s0, src, hsid, hfs, hrole⟩ := id hh
      rw [hitOp_players_heal s tid sid dmg t ht' s0 hsid hh]
      unfold healMap dmgMap
      rw [countRole_map (fun p => by by_cases h : p.id = s0 <;> simp [h]),
        countRole_map (fun p => by by_cases h : p.id = tid <;> simp [h])]
    · rw [hitOp_players_no_heal s tid sid dmg t ht' hh]
      unfold dmgMap
      rw [countRole_map (fun p => by by_cases h : p.id = tid <;> simp [h])]

theorem minionHitOp_players (s : GameState) (dmg : ℚ) :
    ((minionHitOp s dmg).1).players = s.players := by
  unfold minionHitOp
  cases s.minion with
  | none => rfl
  | some m =>
    by_cases h : m.hp - dmg ≤ 0
    · simp [h]
    · simp [h]

theorem minionHitOp_started (s : GameState) (dmg : ℚ) :
    ((minionHitOp s dmg).1).started = s.started := by
  unfold minionHitOp
  cases s.minion with
  | none => rfl
  | some m =>
    by_cases h : m.hp - dmg ≤ 0
    · simp [h]
    · simp [h]

/-- Every tick either leaves the state unchanged, only moves the
Minion, or moves the Minion and applies the 0.5 contact damage to one
roster entry. -/
theorem tick_cases (s : GameState) :
    tickOp s = s ∨
    ∃ m', (tickOp s = { s with minion := some m' } ∨
      ∃ tid, tickOp s = { s with
        minion := some m',
        players := s.players.map (fun q =>
          if q.id = tid then { q with hp := max 0 (q.hp - 0.5) } else q) }) := by
  by_cases hs : s.started = true
  · cases hm : s.minion with
    | none =>
      left
      exact tickOp_no_minion s hm
    | some m =>
      cases hscan : scanNearest m s.players with
      | mk o d =>
        cases o with
        | none =>
          left
          exact tickOp_none_target s m d hs hm hscan
        | some t =>
          by_cases hd : 0 < d
          · by_cases h35 : d < 3.5
            · right
              refine ⟨{ x := m.x + (t.x - m.x) / d * 0.15,
                        z := m.z + (t.z - m.z) / d * 0.15, hp := m.hp },
                Or.inr ⟨t.id, ?_⟩⟩
              rw [tickOp_eq_damage s m t d hs hm hscan hd h35]
            · right
              exact ⟨_, Or.inl (tickOp_eq_move_only s m t d hs hm hscan hd h35)⟩
          · left
            exact tickOp_zero_dist s m t d hs hm hscan hd
  · left
    exact tickOp_not_started s hs

theorem startGameOp_players (s : GameState) (k : ℕ) (hne : s.players ≠ []) :
    (startGameOp s k).players = s.players.map (fun p =>
      { p with role := if p.id = (s.players.map Player.id).getD k "" then Role.hunter
                       else Role.runner, hp := 100, weapon := "none" }) := by
  simp only [startGameOp]
  rw [if_neg (by simp [List.isEmpty_iff, hne])]

theorem startGameOp_empty (s : GameState) (k : ℕ) (he : s.players = []) :
    startGameOp s k = s := by
  simp [startGameOp, he]

theorem countP_id_le_one {ps : List Player} (hnd : (ps.map Player.id).Nodup) (hid : String) :
    ps.countP (fun p => decide (p.id = hid)) ≤ 1 := by
  have h1 : ps.countP (fun p => decide (p.id = hid)) =
      (ps.map Player.id).countP (fun i => decide (i = hid)) := by
    rw [List.countP_map]
    rfl
  have h2 : (ps.map Player.id).countP (fun i => decide (i = hid)) =
      (ps.map Player.id).count hid := by
    rw [List.count_eq_countP]
    exact List.countP_congr (fun x _ => by simp)
  rw [h1, h2]
  exact List.nodup_iff_count_le_one.mp hnd hid

theorem startGame_countHunter (s : GameState) (k : ℕ) (hne : s.players ≠ []) :
    hunterCount (startGameOp s k) =
      s.players.countP (fun p => decide (p.id = (s.players.map Player.id).getD k "")) := by
  rw [hunterCount_eq, startGameOp_players s k hne, List.countP_map]
  exact List.countP_congr (fun p _ => by
    by_cases h : p.id = (s.players.map Player.id).getD k "" <;> simp [Function.comp, h])

/-! ### Step preservation of the session invariants -/

theorem step_hp_nonneg {D : ℚ → Prop} {s s' : GameState} (hst : Step D s s')
    (h : ∀ p ∈ s.players, 0 ≤ p.hp) : ∀ p' ∈ s'.players, 0 ≤ p'.hp := by
  cases hst with
  | join connId =>
    intro p' hp'
    rcases setPlayer_mem s.players (freshPlayer connId) p' hp' with rfl | hmem
    · norm_num [freshPlayer]
    · exact h p' hmem
  | selectChar cid ci =>
    exact hpPred_map (fun p hp => by
      by_cases hc : p.id = cid <;> simpa [hc] using hp) s.players h
  | moveEv pid x z rot =>
    exact hpPred_map (fun p hp => by
      by_cases hc : p.id = pid <;> simpa [hc] using hp) s.players h
  | pickup pid w =>
    exact hpPred_map (fun p hp => by
      by_cases hc : p.id = pid <;> simpa [hc] using hp) s.players h
  | startGame k hk =>
    rcases hk with he | hk
    · intro p' hp'
      rw [startGameOp_empty s k he] at hp'
      exact h p' hp'
    · intro p' hp'
      rw [startGameOp_players s k (by
        intro hnil
        rw [hnil] at hk
        exact Nat.not_lt_zero k hk)] at hp'
      rcases List.mem_map.mp hp' with ⟨p, _, rfl⟩
      norm_num
  | hit tid sid dmg hd =>
    exact hitOp_hp_all s tid sid dmg (fun a => 0 ≤ a) h
      (fun a _ => le_max_left 0 _)
      (fun a ha => le_min (by norm_num) (by linarith))
  | minionHit dmg hd =>
    intro p' hp'
    rw [minionHitOp_players] at hp'
    exact h p' hp'
  | tick =>
    rcases tick_cases s with hcase | ⟨m', hcase | ⟨tid, hcase⟩⟩
    · rw [hcase]
      exact h
    · rw [hcase]
      exact h
    · rw [hcase]
      exact hpPred_map (fun p hp => by
        by_cases hq : p.id = tid <;> simp [hq, hp, le_max_left]) s.players h

theorem step_ids_hunter {D : ℚ → Prop} {s s' : GameState} (hst : Step D s s')
    (h1 : (s.players.map Player.id).Nodup)
    (h3 : s.started = true → hunterCount s ≤ 1) :
    (s'.players.map Player.id).Nodup ∧ (s'.started = true → hunterCount s' ≤ 1) := by
  cases hst with
  | join connId =>
    constructor
    · rcases setPlayer_ids s.players (freshPlayer connId) with he | ⟨he, hnm⟩
      · rw [show (joinOp s connId).players = setPlayer s.players (freshPlayer connId) from rfl,
          he]
        exact h1
      · rw [show (joinOp s connId).players = setPlayer s.players (freshPlayer connId) from rfl,
          he]
        exact h1.append (List.nodup_singleton _)
          (fun x hx hx2 => by
            rcases List.mem_singleton.mp hx2 with rfl
            exact hnm hx)
    · intro hstarted
      have hle := setPlayer_countHunter_le s.players (freshPlayer connId) rfl
      rw [hunterCount_eq]
      calc (setPlayer s.players (freshPlayer connId)).countP
            (fun p => decide (p.role = Role.hunter))
          ≤ s.players.countP (fun p => decide (p.role = Role.hunter)) := hle
        _ = hunterCount s := (hunterCount_eq s).symm
        _ ≤ 1 := h3 hstarted
  | selectChar cid ci =>
    refine ⟨?_, ?_⟩
    · rw [show (selectCharOp s cid ci).players = s.players.map (fun p =>
        if p.id = cid then { p with charIndex := ci } else p) from rfl,
        ids_map_of_id (fun p => by by_cases hc : p.id = cid <;> simp [hc])]
      exact h1
    · intro hstarted
      rw [hunterCount_eq]
      rw [show (selectCharOp s cid ci).players = s.players.map (fun p =>
        if p.id = cid then { p with charIndex := ci } else p) from rfl,
        countRole_map (fun p => by by_cases hc : p.id = cid <;> simp [hc])]
      rw [← hunterCount_eq]
      exact h3 hstarted
  | moveEv pid x z rot =>
    refine ⟨?_, ?_⟩
    · rw [show (moveOp s pid x z rot).players = s.players.map (fun p =>
        if p.id = pid then { p with x := x, z := z, rot := rot } else p) from rfl,
        ids_map_of_id (fun p => by by_cases hc : p.id = pid <;> simp [hc])]
      exact h1
    · intro hstarted
      rw [hunterCount_eq]
      rw [show (moveOp s pid x z rot).players = s.players.map (fun p =>
        if p.id = pid then { p with x := x, z := z, rot := rot } else p) from rfl,
        countRole_map (fun p => by by_cases hc : p.id = pid <;> simp [hc])]
      rw [← hunterCount_eq]
      exact h3 hstarted
  | pickup pid w =>
    refine ⟨?_, ?_⟩
    · rw [show (pickupOp s pid w).players = s.players.map (fun p =>
        if p.id = pid then { p with weapon := w } else p) from rfl,
        ids_map_of_id (fun p => by by_cases hc : p.id = pid <;> simp [hc])]
      exact h1
    · intro hstarted
      rw [hunterCount_eq]
      rw [show (pickupOp s pid w).players = s.players.map (fun p =>
        if p.id = pid then { p with weapon := w } else p) from rfl,
        countRole_map (fun p => by by_cases hc : p.id = pid <;> simp [hc])]
      rw [← hunterCount_eq]
      exact h3 hstarted
  | startGame k hk =>
    rcases hk with he | hk
    · rw [startGameOp_empty s k he]
      exact ⟨h1, h3⟩
    · have hne : s.players ≠ [] := by
        intro hnil
        rw [hnil] at hk
        exact Nat.not_lt_zero k hk
      refine ⟨?_, ?_⟩
      · rw [startGameOp_players s k hne,
          ids_map_of_id (fun p => by
            by_cases hc : p.id = (s.players.map Player.id).getD k "" <;> simp [hc])]
        exact h1
      · intro _
        rw [startGame_countHunter s k hne]
        exact countP_id_le_one h1 _
  | hit tid sid dmg hd =>
    refine ⟨?_, ?_⟩
    · rw [hitOp_ids]
      exact h1
    · intro hstarted
      rw [hunterCount_eq, hitOp_countHunter, ← hunterCount_eq]
      rw [hitOp_started] at hstarted
      exact h3 hstarted
  | minionHit dmg hd =>
    refine ⟨?_, ?_⟩
    · rw [minionHitOp_players]
      exact h1
    · intro hstarted
      rw [hunterCount_eq, minionHitOp_players, ← hunterCount_eq]
      rw [minionHitOp_started] at hstarted
      exact h3 hstarted
  | tick =>
    rcases tick_cases s with hcase | ⟨m', hcase | ⟨tid, hcase⟩⟩
    · rw [hcase]
      exact ⟨h1, h3⟩
    · rw [hcase]
      exact ⟨h1, h3⟩
    · constructor
      · have hids : (tickOp s).players.map Player.id = s.players.map Player.id := by
          rw [hcase]
          exact ids_map_of_id (fun p => by by_cases hc : p.id = tid <;> simp [hc]) s.players
        rw [hids]
        exact h1
      · intro hstarted
        have hst0 : (tickOp s).started = s.started := by
          rw [hcase]
        have hcnt : hunterCount (tickOp s) = hunterCount s := by
          rw [hunterCount_eq, hunterCount_eq, hcase]
          exact countRole_map (fun p => by by_cases hc : p.id = tid <;> simp [hc])
            s.players Role.hunter
        rw [hcnt]
        exact h3 (hst0 ▸ hstarted)

/-! ### Half-integrality -/

theorem halfInt_int (n : ℤ) : HalfInt (n : ℚ) :=
  ⟨2 * n, by push_cast; ring⟩

theorem halfInt_max {a b : ℚ} (ha : HalfInt a) (hb : HalfInt b) : HalfInt (max a b) := by
  rcases le_total a b with h | h
  · rw [max_eq_right h]
    exact hb
  · rw [max_eq_left h]
    exact ha

theorem halfInt_min {a b : ℚ} (ha : HalfInt a) (hb : HalfInt b) : HalfInt (min a b) := by
  rcases le_total a b with h | h
  · rw [min_eq_left h]
    exact ha
  · rw [min_eq_right h]
    exact hb

theorem halfInt_sub_int {a : ℚ} (ha : HalfInt a) (n : ℤ) : HalfInt (a - (n : ℚ)) := by
  obtain ⟨m, rfl⟩ := ha
  exact ⟨m - 2 * n, by push_cast; ring⟩

theorem halfInt_add20 {a : ℚ} (ha : HalfInt a) : HalfInt (a + 20) := by
  obtain ⟨m, rfl⟩ := ha
  exact ⟨m + 40, by push_cast; ring⟩

theorem halfInt_sub_half {a : ℚ} (ha : HalfInt a) : HalfInt (a - 0.5) := by
  obtain ⟨m, rfl⟩ := ha
  refine ⟨m - 1, ?_⟩
  push_cast
  norm_num
  ring

theorem step_halfint {s s' : GameState} (hst : Step IntD s s')
    (h : ∀ p ∈ s.players, HalfInt p.hp) : ∀ p' ∈ s'.players, HalfInt p'.hp := by
  cases hst with
  | join connId =>
    intro p' hp'
    rcases setPlayer_mem s.players (freshPlayer connId) p' hp' with rfl | hmem
    · exact ⟨200, by norm_num [freshPlayer]⟩
    · exact h p' hmem
  | selectChar cid ci =>
    exact hpPred_map (fun p hp => by
      by_cases hc : p.id = cid <;> simpa [hc] using hp) s.players h
  | moveEv pid x z rot =>
    exact hpPred_map (fun p hp => by
      by_cases hc : p.id = pid <;> simpa [hc] using hp) s.players h
  | pickup pid w =>
    exact hpPred_map (fun p hp => by
      by_cases hc : p.id = pid <;> simpa [hc] using hp) s.players h
  | startGame k hk =>
    rcases hk with he | hk
    · intro p' hp'
      rw [startGameOp_empty s k he] at hp'
      exact h p' hp'
    · intro p' hp'
      rw [startGameOp_players s k (by
        intro hnil
        rw [hnil] at hk
        exact Nat.not_lt_zero k hk)] at hp'
      rcases List.mem_map.mp hp' with ⟨p, _, rfl⟩
      exact ⟨200, by norm_num⟩
  | hit tid sid dmg hd =>
    obtain ⟨n, rfl⟩ := hd
    exact hitOp_hp_all s tid (by exact sid) (n : ℚ) HalfInt h
      (fun a ha => halfInt_max ⟨0, by norm_num⟩ (halfInt_sub_int ha n))
      (fun a ha => halfInt_min ⟨300, by norm_num⟩ (halfInt_add20 ha))
  | minionHit dmg hd =>
    intro p' hp'
    rw [minionHitOp_players] at hp'
    exact h p' hp'
  | tick =>
    rcases tick_cases s with hcase | ⟨m', hcase | ⟨tid, hcase⟩⟩
    · rw [hcase]
      exact h
    · rw [hcase]
      exact h
    · rw [hcase]
      exact hpPred_map (fun p hp => by
        by_cases hq : p.id = tid
        · simp only [hq, if_pos]
          exact halfInt_max ⟨0, by norm_num⟩ (halfInt_sub_half hp)
        · simpa [hq] using hp) s.players h

/-! ### Reachability -/

theorem reachable_hp_nonneg {D : ℚ → Prop} (s : GameState) (h : Reachable D s) :
    ∀ p ∈ s.players, 0 ≤ p.hp := by
  induction h with
  | refl => simp [initState]
  | tail _ hstep ih => exact step_hp_nonneg hstep ih

theorem reachable_nodup_hunter {D : ℚ → Prop} (s : GameState) (h : Reachable D s) :
    (s.players.map Player.id).Nodup ∧ (s.started = true → hunterCount s ≤ 1) := by
  induction h with
  | refl => exact ⟨by simp [initState], fun _ => by simp [hunterCount, initState]⟩
  | tail _ hstep ih => exact step_ids_hunter hstep ih.1 ih.2

theorem reachable_halfint (s : GameState) (h : Reachable IntD s) :
    ∀ p ∈ s.players, HalfInt p.hp := by
  induction h with
  | refl => simp [initState]
  | tail _ hstep ih => exact step_halfint hstep ih

theorem reach_sAB (D : ℚ → Prop) : Reachable D sAB :=
  (Relation.ReflTransGen.single (Step.join initState "a")).tail (Step.join _ "b")

theorem reach_sStart (D : ℚ → Prop) : Reachable D sStart :=
  (reach_sAB D).tail (Step.startGame sAB 0 (Or.inr (by decide)))

theorem reach_sMove (D : ℚ → Prop) : Reachable D sMove :=
  (reach_sStart D).tail (Step.moveEv sStart "b" 1 0 0)

theorem reach_sTicked (D : ℚ → Prop) : Reachable D sTicked :=
  (reach_sMove D).tail (Step.tick sMove)

theorem reach_sSolo (D : ℚ → Prop) : Reachable D sSolo :=
  (Relation.ReflTransGen.single (Step.join initState "a")).tail
    (Step.startGame _ 0 (Or.inr (by decide)))

theorem reach_sRejoin (D : ℚ → Prop) : Reachable D sRejoin :=
  (reach_sSolo D).tail (Step.join sSolo "a")

theorem reach_sHitFloor : Reachable AnyD sHitFloor :=
  (Relation.ReflTransGen.single (Step.join initState "a")).tail
    (Step.hit _ "a" none 150 trivial)

/-- C4: in every state reachable by any sequence of operations (join,
select-char, move, start-game, hit, minion-hit, pickup, minion AI
ticks), every Player's hp is ≥ 0. -/
theorem hp_nonneg_invariant (D : ℚ → Prop) (s : GameState) (h : Reachable D s) :
    ∀ p ∈ s.players, 0 ≤ p.hp := reachable_hp_nonneg s h

/-- Witness for C4: after joining and taking a 150-damage hit, player
`"a"` sits exactly at the floor 0, and the invariant instantiates at
that reachable state. -/
theorem hp_nonneg_invariant_witness :
    Reachable AnyD sHitFloor ∧ hpOf sHitFloor "a" = some 0 ∧ 0 ≤ hpD sHitFloor "a" := by
  have hr := reach_sHitFloor
  have hnh : ¬ healCond (joinOp initState "a") (freshPlayer "a") none 150 := by
    rintro ⟨-, s0, src, hsid, -⟩
    exact Option.noConfusion hsid
  have hpl := hitOp_players_no_heal (joinOp initState "a") "a" none 150 (freshPlayer "a")
    rfl hnh
  have hof : hpOf sHitFloor "a" = some 0 := by
    show hpOf (hitOp (joinOp initState "a") "a" none 150) "a" = some 0
    simp only [hpOf, lookupP]
    rw [hpl, dmgMap_find?]
    rw [show (joinOp initState "a").players.find? (fun p => decide (p.id = "a")) =
      some (freshPlayer "a") from rfl]
    simp only [Option.map_some']
    rw [if_pos (show (freshPlayer "a").id = "a" from rfl)]
    show some (max 0 ((freshPlayer "a").hp - 150)) = some 0
    norm_num [freshPlayer, max_def]
  refine ⟨hr, hof, ?_⟩
  obtain ⟨pa, hla, hpa⟩ := Option.map_eq_some'.mp hof
  have hmem : pa ∈ sHitFloor.players := List.mem_of_find?_eq_some hla
  have h0 := hp_nonneg_invariant AnyD sHitFloor hr pa hmem
  have he : hpD sHitFloor "a" = pa.hp := by
    simp [hpD, hpOf, hla]
  rw [he]
  exact h0

/-- C5 (amended): in every reachable state with started = true, at
most one Player holds role Hunter.  (Exactly one holds it right after
a successful `start-game`; a rejoin by the Hunter demotes it to
Runner, leaving zero Hunters, so "exactly one, preserved by every
operation including rejoin" is false.) -/
theorem hunter_at_most_one (D : ℚ → Prop) (s : GameState) (h : Reachable D s)
    (hs : s.started = true) : hunterCount s ≤ 1 := (reachable_nodup_hunter s h).2 hs

/-- Witness for C5: the started single-player room `sSolo` has exactly
one Hunter, within the invariant's bound. -/
theorem hunter_at_most_one_witness :
    Reachable AnyD sSolo ∧ sSolo.started = true ∧ hunterCount sSolo ≤ 1 ∧
      hunterCount sSolo = 1 :=
  ⟨reach_sSolo AnyD, rfl, hunter_at_most_one AnyD sSolo (reach_sSolo AnyD) rfl, by decide⟩

/-- Counterexample for C5 as stated: after the Hunter of the started
room `sSolo` re-joins, the reachable state `sRejoin` still has
started = true but zero Hunters — the join handler overwrote the
Hunter's entry with fresh Runner defaults. -/
theorem hunter_rejoin_counterexample :
    Reachable AnyD sRejoin ∧ sRejoin.started = true ∧ hunterCount sRejoin = 0 :=
  ⟨reach_sRejoin AnyD, rfl, by decide⟩

/-! ### Integrality of hit points -/

theorem sTicked_players :
    sTicked.players = [aHunter, { bMoved with hp := max 0 (bMoved.hp - 0.5) }] := by
  show (tickOp sMove).players = _
  rw [tickOp_eq_damage sMove minionFresh bMoved 1 rfl rfl scan_sMove (by norm_num)
    (by norm_num)]
  show (sMove.players.map (fun q =>
    if q.id = bMoved.id then { q with hp := max 0 (q.hp - 0.5) } else q)) = _
  rw [sMove_players]
  simp only [List.map_cons, List.map_nil]
  rw [if_neg (show ¬ aHunter.id = bMoved.id by decide)]
  simp

theorem sTicked_hp_b : hpOf sTicked "b" = some (max 0 (bMoved.hp - 0.5)) := by
  simp only [hpOf, lookupP, sTicked_players]
  rw [List.find?_cons_of_neg _ (by simp [aHunter]),
    List.find?_cons_of_pos _ (by simp [bMoved])]
  rfl

theorem maxhalf_val : max 0 (bMoved.hp - 0.5) = 199 / 2 := by
  norm_num [bMoved, max_def]

/-- Counterexample for C10 as stated: the state `sTicked` is reachable
using only events whose damage fields are integers (there are none —
just joins, a start, a move and one minion AI tick), yet Runner `"b"`
ends at hp 99.5, which is not an integer. -/
theorem hp_integrality_counterexample :
    Reachable IntD sTicked ∧ hpOf sTicked "b" = some (199 / 2) ∧
    ¬ (∀ p ∈ sTicked.players, ∃ n : ℤ, p.hp = (n : ℚ)) := by
  refine ⟨reach_sTicked IntD, by rw [sTicked_hp_b, maxhalf_val], ?_⟩
  intro hall
  have hmem : ({ bMoved with hp := max 0 (bMoved.hp - 0.5) } : Player) ∈ sTicked.players := by
    rw [sTicked_players]
    exact List.mem_cons_of_mem _ (List.mem_cons_self _ _)
  obtain ⟨n, hn⟩ := hall _ hmem
  rw [show ({ bMoved with hp := max 0 (bMoved.hp - 0.5) } : Player).hp =
    (199 : ℚ) / 2 from maxhalf_val] at hn
  have h2 : (199 : ℚ) = 2 * (n : ℚ) := by
    field_simp at hn
    linarith [hn]
  have h3 : (199 : ℤ) = 2 * n := by exact_mod_cast h2
  omega

/-- C10 (amended): under event sequences in which every damage field
is an integer, every Player's hp is an integer multiple of one half —
the minion AI tick's 0.5 contact damage can make hp non-integral, so
plain integrality does not hold across ticks. -/
theorem hp_halfint_invariant (s : GameState) (h : Reachable IntD s) :
    ∀ p ∈ s.players, HalfInt p.hp := reachable_halfint s h

/-- Witness for C10: the invariant instantiated at the reachable state
`sTicked`, whose Runner sits at the non-integral hp 99.5 = 199/2. -/
theorem hp_halfint_invariant_witness :
    Reachable IntD sTicked ∧ HalfInt (hpD sTicked "b") := by
  have hr := reach_sTicked IntD
  refine ⟨hr, ?_⟩
  have hmem : ({ bMoved with hp := max 0 (bMoved.hp - 0.5) } : Player) ∈ sTicked.players := by
    rw [sTicked_players]
    exact List.mem_cons_of_mem _ (List.mem_cons_self _ _)
  have hhi := hp_halfint_invariant sTicked hr _ hmem
  have he : hpD sTicked "b" = max 0 (bMoved.hp - 0.5) := by
    simp [hpD, sTicked_hp_b]
  rw [he]
  exact hhi

/-! ### Monotonicity of hp under `hit` events -/

theorem applyHits_nonneg : ∀ (evs : List (String × Option String × ℚ)) (s : GameState),
    (∀ p ∈ s.players, 0 ≤ p.hp) → ∀ p ∈ (applyHits s evs).players, 0 ≤ p.hp := by
  intro evs
  induction evs with
  | nil =>
    intro s h0
    exact h0
  | cons e evs ih =>
    intro s h0
    have h1 := hitOp_hp_all s e.1 e.2.1 e.2.2 (fun a => 0 ≤ a) h0
      (fun a _ => le_max_left 0 _)
      (fun a ha => le_min (by norm_num) (by linarith))
    exact ih (hitOp s e.1 e.2.1 e.2.2) h1

theorem hit_hpD_le (s : GameState) (h0 : ∀ p ∈ s.players, 0 ≤ p.hp)
    (tid : String) (sid : Option String) (dmg : ℚ) (x : String) (hd : 0 ≤ dmg) :
    hpD (hitOp s tid sid dmg) x ≤ hpD s x ∨
    (sid = some x ∧ hpD (hitOp s tid sid dmg) x ≤ min 150 (hpD s x + 20)) := by
  cases ht : s.players.find? (fun p => decide (p.id = tid)) with
  | none =>
    left
    rw [hitOp_no_target s tid sid dmg ht]
  | some t =>
    have ht' : lookupP s tid = some t := ht
    have ht0 : 0 ≤ t.hp := h0 t (List.mem_of_find?_eq_some ht)
    by_cases hh : healCond s t sid dmg
    · obtain ⟨hz, s0, src, hsid, hfs, hrole⟩ := id hh
      have hplayers := hitOp_players_heal s tid sid dmg t ht' s0 hsid hh
      have hfs2 : s.players.find? (fun p => decide (p.id = s0)) = some src := hfs
      have hsrcid : src.id = s0 := lookupP_id hfs
      by_cases hx : x = s0
      · subst hx
        right
        refine ⟨hsid, ?_⟩
        have hRHS : hpD s x = src.hp := by
          simp only [hpD, hpOf, lookupP]
          rw [hfs2]
          rfl
        by_cases hst : src.id = tid
        · have hLHS : hpD (hitOp s tid sid dmg) x = min 150 (max 0 (t.hp - dmg) + 20) := by
            simp only [hpD, hpOf, lookupP]
            rw [hplayers, healMap_find?, dmgMap_find?, hfs2]
            simp only [Option.map_some']
            rw [if_pos hst,
              if_pos (show ({ src with hp := max 0 (t.hp - dmg) } : Player).id = x from hsrcid)]
            rfl
          have hsrc0 : 0 ≤ src.hp := h0 src (List.mem_of_find?_eq_some hfs2)
          rw [hLHS, hRHS, hz]
          calc (min 150 (0 + 20) : ℚ) = 20 := by norm_num [min_def]
            _ ≤ min 150 (src.hp + 20) := le_min (by norm_num) (by linarith)
        · have hLHS : hpD (hitOp s tid sid dmg) x = min 150 (src.hp + 20) := by
            simp only [hpD, hpOf, lookupP]
            rw [hplayers, healMap_find?, dmgMap_find?, hfs2]
            simp only [Option.map_some']
            rw [if_neg hst, if_pos (show src.id = x from hsrcid)]
            rfl
          rw [hLHS, hRHS]
      · left
        cases hlx : s.players.find? (fun p => decide (p.id = x)) with
        | none =>
          have hLHS : hpD (hitOp s tid sid dmg) x = 0 := by
            simp only [hpD, hpOf, lookupP]
            rw [hplayers, healMap_find?, dmgMap_find?, hlx]
            rfl
          have hRHS : hpD s x = 0 := by
            simp only [hpD, hpOf, lookupP]
            rw [hlx]
            rfl
          rw [hLHS, hRHS]
        | some p =>
          have hpid : p.id = x := by simpa using List.find?_some hlx
          have hRHS : hpD s x = p.hp := by
            simp only [hpD, hpOf, lookupP]
            rw [hlx]
            rfl
          by_cases hpt : p.id = tid
          · have hxt : x = tid := hpid ▸ hpt
            have hpt' : p = t := by
              rw [hxt] at hlx
              exact Option.some.inj (hlx.symm.trans ht)
            have hLHS : hpD (hitOp s tid sid dmg) x = max 0 (t.hp - dmg) := by
              simp only [hpD, hpOf, lookupP]
              rw [hplayers, healMap_find?, dmgMap_find?, hlx]
              simp only [Option.map_some']
              rw [if_pos hpt,
                if_neg (show ¬ ({ p with hp := max 0 (t.hp - dmg) } : Player).id = s0 from by
                  show ¬ p.id = s0
                  rw [hpid]
                  exact hx)]
              rfl
            rw [hLHS, hRHS, hpt']
            exact max_le ht0 (by linarith)
          · have hLHS : hpD (hitOp s tid sid dmg) x = p.hp := by
              simp only [hpD, hpOf, lookupP]
              rw [hplayers, healMap_find?, dmgMap_find?, hlx]
              simp only [Option.map_some']
              rw [if_neg hpt,
                if_neg (show ¬ p.id = s0 from by rw [hpid]; exact hx)]
              rfl
            rw [hLHS, hRHS]
    · left
      have hplayers := hitOp_players_no_heal s tid sid dmg t ht' hh
      cases hlx : s.players.find? (fun p => decide (p.id = x)) with
      | none =>
        have hLHS : hpD (hitOp s tid sid dmg) x = 0 := by
          simp only [hpD, hpOf, lookupP]
          rw [hplayers, dmgMap_find?, hlx]
          rfl
        have hRHS : hpD s x = 0 := by
          simp only [hpD, hpOf, lookupP]
          rw [hlx]
          rfl
        rw [hLHS, hRHS]
      | some p =>
        have hpid : p.id = x := by simpa using List.find?_some hlx
        have hRHS : hpD s x = p.hp := by
          simp only [hpD, hpOf, lookupP]
          rw [hlx]
          rfl
        by_cases hpt : p.id = tid
        · have hxt : x = tid := hpid ▸ hpt
          have hpt' : p = t := by
            rw [hxt] at hlx
            exact Option.some.inj (hlx.symm.trans ht)
          have hLHS : hpD (hitOp s tid sid dmg) x = max 0 (t.hp - dmg) := by
            simp only [hpD, hpOf, lookupP]
            rw [hplayers, dmgMap_find?, hlx]
            simp only [Option.map_some']
            rw [if_pos hpt]
            rfl
          rw [hLHS, hRHS, hpt']
          exact max_le ht0 (by linarith)
        · have hLHS : hpD (hitOp s tid sid dmg) x = p.hp := by
            simp only [hpD, hpOf, lookupP]
            rw [hplayers, dmgMap_find?, hlx]
            simp only [Option.map_some']
            rw [if_neg hpt]
            rfl
          rw [hLHS, hRHS]

/-- C9 (amended): across any sequence of `hit` events a player's hp
never drops below 0; a single `hit` with nonnegative damage leaves
every player's hp unchanged or lower, except that the player named by
`sourceId` may be healed by the kill rule — and then its hp still
never exceeds min(150, previous hp + 20).  (Unamended, the claim is
false: the heal *increases* the Hunter source's hp.) -/
theorem hit_monotonicity (s : GameState) (h0 : ∀ p ∈ s.players, 0 ≤ p.hp) :
    (∀ evs, ∀ p ∈ (applyHits s evs).players, 0 ≤ p.hp) ∧
    (∀ tid sid dmg x, 0 ≤ dmg →
      hpD (hitOp s tid sid dmg) x ≤ hpD s x ∨
      (sid = some x ∧ hpD (hitOp s tid sid dmg) x ≤ min 150 (hpD s x + 20))) :=
  ⟨fun evs => applyHits_nonneg evs s h0,
   fun tid sid dmg x hd => hit_hpD_le s h0 tid sid dmg x hd⟩

/-- Witness for C9: the amended bound instantiated at the room `sHR`
for the hit that kills the Runner and heals the Hunter. -/
theorem hit_monotonicity_witness :
    hpD (hitOp sHR "r" (some "h") 5) "h" ≤ hpD sHR "h" ∨
    (some "h" = some "h" ∧
      hpD (hitOp sHR "r" (some "h") 5) "h" ≤ min 150 (hpD sHR "h" + 20)) :=
  (hit_monotonicity sHR (by decide)).2 "r" (some "h") 5 "h" (by norm_num)

/-- Counterexample for C9 as stated: the Hunter `"h"` starts at hp 100
and *gains* hp from a `hit` event (it ends at 120 after its kill heal),
so hp is not monotonically non-increasing under `hit` events. -/
theorem hit_monotonicity_counterexample :
    hpD sHR "h" = 100 ∧ hpD (hitOp sHR "r" (some "h") 5) "h" = 120 ∧
    ¬ ((120 : ℚ) ≤ 100) := by
  have hhc : healCond sHR runnerR (some "h") 5 :=
    ⟨by simp [runnerR], "h", hunterH, rfl, rfl, rfl⟩
  have hplayers := hitOp_players_heal sHR "r" (some "h") 5 runnerR rfl "h" rfl hhc
  refine ⟨by decide, ?_, by norm_num⟩
  simp only [hpD, hpOf, lookupP]
  rw [hplayers, healMap_find?, dmgMap_find?]
  rw [show sHR.players.find? (fun p => decide (p.id = "h")) = some hunterH from rfl]
  simp only [Option.map_some']
  rw [if_neg (show ¬ hunterH.id = "r" by decide), if_pos (show hunterH.id = "h" from rfl)]
  show min 150 (hunterH.hp + 20) = 120
  norm_num [hunterH, min_def]

end MP
